import Mathlib

/-!
The session and game-state core of puissance4-socket (`src/index.js`).

A shallow embedding of the socket.io event handlers of `src/index.js` and of
the error classes of `src/errors.js`.

* A JavaScript string is the list of its UTF-16 code units, so `.length` is
  `List.length` and `.slice(0, 8)` is `List.take 8`.
* The two module-level `Map`s (`games`, `playerSessions`) are insertion-ordered
  association lists; a handler is a function from the server state to the new
  state and the list of transport effects it performed, in order.
* `uuid4()` and `Math.random()` are inputs of the handlers that call them.
* `joinGame` is two functions: the part up to its `await`, and the part that
  runs once the acknowledgements are complete.
* A sequence of invocations is a list of events, each with its socket; `run`
  executes it from a state.
* `String.prototype.toLowerCase` is an argument `lower` of `joinGame`.
-/

namespace Puissance4

/-! ## JavaScript strings -/

/-- A JavaScript string: its sequence of UTF-16 code units. -/
abbrev JSString := List Nat

/-- Code units of a literal whose characters all lie in the Basic Multilingual Plane. -/
def lit (s : String) : JSString := s.toList.map Char.toNat

/-- The code units removed by `String.prototype.trim`: ECMAScript `WhiteSpace`
and `LineTerminator`. -/
def isWhiteSpace (c : Nat) : Bool :=
  c == 0x09 || c == 0x0A || c == 0x0B || c == 0x0C || c == 0x0D || c == 0x20 ||
  c == 0xA0 || c == 0x1680 || (0x2000 ≤ c && c ≤ 0x200A) || c == 0x2028 ||
  c == 0x2029 || c == 0x202F || c == 0x205F || c == 0x3000 || c == 0xFEFF

/-- Model of `String.prototype.trimStart`. -/
def trimStart (s : JSString) : JSString := s.dropWhile isWhiteSpace

/-- Model of `String.prototype.trimEnd`. -/
def trimEnd (s : JSString) : JSString := (s.reverse.dropWhile isWhiteSpace).reverse

/-- Model of `String.prototype.trim`. -/
def trim (s : JSString) : JSString := trimEnd (trimStart s)

/-- Truthiness of a string: the empty string is the only falsy one. -/
def truthy (s : JSString) : Bool := !s.isEmpty

/-- Lower-casing of one code unit on Basic Latin, Latin-1 Supplement and
U+0130 (whose lower case is the two units U+0069 U+0307); used to instantiate
the `lower` argument of `joinGame` on strings made of such units. -/
def toLowerCaseUnit (c : Nat) : List Nat :=
  if 0x41 ≤ c ∧ c ≤ 0x5A then [c + 0x20]
  else if 0xC0 ≤ c ∧ c ≤ 0xDE ∧ c ≠ 0xD7 then [c + 0x20]
  else if c = 0x130 then [0x69, 0x307]
  else [c]

/-- The instance of `String.prototype.toLowerCase` on strings whose code units
are Basic Latin, Latin-1 Supplement, U+0130 or combining marks. -/
def toLowerCase (s : JSString) : JSString := s.flatMap toLowerCaseUnit

/-! ## JavaScript `Map` -/

/-- A JavaScript `Map` with string keys, as its entries in insertion order. -/
abbrev JSMap (β : Type) := List (JSString × β)

namespace JSMap

variable {β : Type}

/-- Model of `Map.prototype.get`: `none` is `undefined`. -/
def get : JSMap β → JSString → Option β
  | [], _ => none
  | (k, v) :: rest, key => if k = key then some v else get rest key

/-- Model of `Map.prototype.set`: an existing key keeps its position and takes
the new value, a new key is appended. -/
def set : JSMap β → JSString → β → JSMap β
  | [], key, value => [(key, value)]
  | (k, v) :: rest, key, value =>
    if k = key then (k, value) :: rest else (k, v) :: set rest key value

/-- Model of `Map.prototype.delete`. -/
def delete (m : JSMap β) (key : JSString) : JSMap β :=
  m.filter (fun entry => !decide (entry.1 = key))

/-- The keys of the map, in insertion order. -/
def keys (m : JSMap β) : List JSString := m.map Prod.fst

/-- The invariant of a `Map`: no key occurs twice. -/
def WellFormed (m : JSMap β) : Prop := (keys m).Nodup

instance decidableWellFormed (m : JSMap β) : Decidable (WellFormed m) :=
  inferInstanceAs (Decidable (keys m).Nodup)

end JSMap

/-! ## Data model -/

/-- An element of `game.players`: `{sessionId, socketId, name}`. The session
identifier is `undefined` when `initSession` never ran for the socket. -/
structure Player where
  sessionId : Option JSString
  socketId : JSString
  name : JSString
deriving DecidableEq, Repr

/-- The two values of `game.gameState`. -/
inductive GameState where
  | waiting
  | playing
deriving DecidableEq, Repr

/-- A value stored in `games`: `{players, currentPlayer, gameState}` and, after
`confirmResetBoard`, `grid`. `currentPlayer = none` is `null`. -/
structure Game where
  players : List Player
  currentPlayer : Option Nat
  gameState : GameState
  grid : Option (List (List Nat))
deriving DecidableEq, Repr

/-- The module-level state of `src/index.js`. -/
structure Server where
  games : JSMap Game
  playerSessions : JSMap JSString
deriving DecidableEq, Repr

/-- The state at process start: both maps are empty. -/
def Server.empty : Server := { games := [], playerSessions := [] }

/-! ## Errors (`src/errors.js`) -/

/-- The error classes of `src/errors.js`. -/
inductive GameError where
  | GameNotFoundError (gameId : JSString)
  | GameFullError
  | NotEnoughPlayerError
  | InvalidUsernameError
  | EmptyUsernameError
  | UsernameAlreadyUsedError
deriving DecidableEq, Repr

/-- The `message` each constructor passes to `super`. -/
def GameError.message : GameError → JSString
  | .GameNotFoundError gameId =>
    lit "La partie " ++ [0x22] ++ gameId ++ [0x22] ++ lit " n'a pas été trouvé"
  | .GameFullError => lit "La partie est complète"
  | .NotEnoughPlayerError => lit "Pas assez de joueurs (besoin de 2 joueurs)"
  | .InvalidUsernameError =>
    lit "Le pseudo ne peut être inférieur à 3 caractères et supérieurs à 20"
  | .EmptyUsernameError => lit "Le pseudo ne peut être vide"
  | .UsernameAlreadyUsedError => lit "Ce pseudo est déjà utilisé dans la partie"

/-- What escapes a handler that has no `try`: the `GameNotFoundError` thrown by
`movePlayed`, or the `TypeError` of reading a property of `undefined`. -/
inductive Fault where
  | gameNotFound (gameId : JSString)
  | typeError
deriving DecidableEq, Repr

/-! ## Transport effects -/

/-- Addressee of an emitted event. -/
inductive Target where
  /-- The calling connection: `socket.emit`. -/
  | socket (socketId : JSString)
  /-- Every connection in a room: `io.to(name).emit`. A room named by a socket
  id holds that connection alone; a room named by a game id is the broadcast
  group of the game. -/
  | room (name : JSString)
  /-- Every connection in a room but the sender: `socket.to(name).emit`. -/
  | roomExcept (name : JSString) (sender : JSString)
deriving DecidableEq, Repr

/-- The outbound events with their payloads. -/
inductive Message where
  | sessionCreated (newSessionId : JSString)
  | gameCreated (gameId : JSString) (playerId : Nat) (playerName : JSString)
  | gameError (message : JSString)
  | prepareGame (gameId : JSString) (playerId : Nat) (playerName : JSString)
      (opponentName : JSString)
  | gameStarted (startingPlayer : Nat) (player1 : JSString) (player2 : JSString)
  | opponentPlayed (columnIndex : Int) (playedBy : Nat) (nextPlayer : Nat)
  | resetBoardRequested (requestedBy : JSString)
  | boardReset (payload : Option (Nat × List (List Nat)))
  | resetScoresRequested (requestedBy : JSString)
  | resetScores
  | scoresReset
  | resetRejected (rejectedBy : JSString)
  | hostLeft
  | playerLeft (playerName : JSString)
deriving DecidableEq, Repr

/-- What a handler does to the outside world. -/
inductive Effect where
  | emit (target : Target) (msg : Message)
  /-- The call `socket.join(room)`. -/
  | join (socketId : JSString) (room : JSString)
  /-- The call `io.sockets.sockets.get(socketId)?.leave(room)`. -/
  | leave (socketId : JSString) (room : JSString)
  /-- The call `console.log(text)`. -/
  | log (text : JSString)
deriving DecidableEq, Repr

/-- The events a list of effects sends, with their addressees, in order. -/
def messages : List Effect → List (Target × Message)
  | [] => []
  | .emit target msg :: rest => (target, msg) :: messages rest
  | _ :: rest => messages rest

/-! ## Array helpers -/

/-- Model of `Array.prototype.findIndex`: `none` is `-1`. -/
def findIndex {α : Type} (p : α → Bool) : List α → Option Nat
  | [] => none
  | x :: xs => if p x then some 0 else (findIndex p xs).map (fun i => i + 1)

/-! ## Handlers -/

/-- How a `try` body ended: the state and the effects at that point, and the
error it threw, if any. Nothing is rolled back when an error is thrown. -/
structure Outcome where
  server : Server
  effects : List Effect
  thrown : Option GameError
deriving DecidableEq, Repr

/-- The `catch (error)` block shared by `createGame` and `joinGame`:
`socket.emit("gameError", error.message)`. -/
def catchGameError (socketId : JSString) (o : Outcome) : Server × List Effect :=
  match o.thrown with
  | none => (o.server, o.effects)
  | some error => (o.server, o.effects ++ [.emit (.socket socketId) (.gameError error.message)])

/-- Handler of `initSession` (index.js 28-36). `uuid` is what `uuid4()` returns
when it is called. -/
def initSession (st : Server) (socketId : JSString) (sessionId : Option JSString)
    (uuid : JSString) : Server × List Effect :=
  if (match sessionId with
      | some s => truthy s
      | none => false) then
    ({ st with playerSessions := st.playerSessions.set socketId (sessionId.getD []) }, [])
  else
    ({ st with playerSessions := st.playerSessions.set socketId uuid },
      [.emit (.socket socketId) (.sessionCreated uuid)])

/-- The `try` body of `createGame` (index.js 41-67). -/
def createGameBody (st : Server) (socketId playerName uuid : JSString) : Outcome :=
  if !truthy (trim playerName) then
    { server := st, effects := [], thrown := some .EmptyUsernameError }
  else if playerName.length < 3 ∨ playerName.length > 20 then
    { server := st, effects := [], thrown := some .InvalidUsernameError }
  else
    let gameId := uuid.take 8
    let sessionId := st.playerSessions.get socketId
    let game : Game :=
      { players := [{ sessionId := sessionId, socketId := socketId, name := playerName }],
        currentPlayer := none, gameState := .waiting, grid := none }
    { server := { st with games := st.games.set gameId game },
      effects := [.join socketId gameId,
                  .emit (.socket socketId) (.gameCreated gameId 1 playerName)],
      thrown := none }

/-- Handler of `createGame` (index.js 39-71). -/
def createGame (st : Server) (socketId playerName uuid : JSString) : Server × List Effect :=
  catchGameError socketId (createGameBody st socketId playerName uuid)

/-- The `prepareGame` emissions of `joinGame` (index.js 109-116), one per
player in array order: `player === game.players[0]` holds for the first
element only, the elements being distinct objects. -/
def prepareGameEffects (gameId playerName : JSString) : List Player → List Effect
  | [] => []
  | host :: others =>
    .emit (.room host.socketId) (.prepareGame gameId 1 host.name playerName) ::
      others.map (fun player =>
        .emit (.room player.socketId) (.prepareGame gameId 2 player.name host.name))

/-- The `try` body of `joinGame` up to the `await` (index.js 76-116). -/
def joinGameBody (lower : JSString → JSString) (st : Server)
    (socketId gameId playerName : JSString) : Outcome :=
  let sessionId := st.playerSessions.get socketId
  match st.games.get gameId with
  | none => { server := st, effects := [], thrown := some (.GameNotFoundError gameId) }
  | some game =>
    if game.players.length ≥ 2 then
      { server := st, effects := [], thrown := some .GameFullError }
    else if game.players.length < 1 then
      { server := st, effects := [], thrown := some .NotEnoughPlayerError }
    else if !truthy (trim playerName) then
      { server := st, effects := [], thrown := some .EmptyUsernameError }
    else if playerName.length < 3 ∨ playerName.length > 20 then
      { server := st, effects := [], thrown := some .InvalidUsernameError }
    else if game.players.any (fun player => lower player.name == lower playerName) then
      { server := st, effects := [], thrown := some .UsernameAlreadyUsedError }
    else
      let players := game.players ++
        [{ sessionId := sessionId, socketId := socketId, name := playerName }]
      { server := { st with games := st.games.set gameId { game with players := players } },
        effects := .join socketId gameId :: prepareGameEffects gameId playerName players,
        thrown := none }

/-- Handler of `joinGame` from the event to the point where it suspends on
`await Promise.all(playerPromises)` (index.js 74-118 and the `catch`). -/
def joinGame (lower : JSString → JSString) (st : Server)
    (socketId gameId playerName : JSString) : Server × List Effect :=
  catchGameError socketId (joinGameBody lower st socketId gameId playerName)

/-- The message of the `TypeError` V8 raises for `undefined.name`. -/
def typeErrorMessage : JSString := lit "Cannot read properties of undefined (reading 'name')"

/-- The rest of `joinGame`, run once every `prepareGame` is acknowledged
(index.js 120-131). `game` is the value, at that moment, of the object the
handler holds in its variable `game`; `attached` tells whether that object is
still the entry of `games` under `gameId` (it is not once `disconnect` has
deleted the entry or `createGame` has replaced it); `draw` is the value of
`Math.random()`. -/
def joinGameResume (st : Server) (socketId gameId : JSString) (game : Game) (attached : Bool)
    (draw : ℚ) : Server × List Effect :=
  let currentPlayer : Nat := if draw < 1 / 2 then 1 else 2
  let started : Game := { game with currentPlayer := some currentPlayer }
  let st1 : Server := if attached then { st with games := st.games.set gameId started } else st
  match game.players with
  | player1 :: player2 :: _ =>
    (st1, [.emit (.room gameId) (.gameStarted currentPlayer player1.name player2.name)])
  | _ => (st1, [.emit (.socket socketId) (.gameError typeErrorMessage)])

/-- Handler of `movePlayed` (index.js 137-167). It has no `try`: the
`GameNotFoundError` escapes. -/
def movePlayed (st : Server) (socketId gameId : JSString) (columnIndex : Int) :
    Except Fault (Server × List Effect) :=
  match st.games.get gameId with
  | none => .error (.gameNotFound gameId)
  | some game =>
    match findIndex (fun player => player.socketId == socketId) game.players with
    | none => .ok (st, [.log (lit "Player not found in game")])
    | some playerIndex =>
      let currentPlayerNumber := playerIndex + 1
      if game.currentPlayer ≠ some currentPlayerNumber then
        .ok (st, [.log (lit "Not your turn")])
      else
        let nextPlayer := if currentPlayerNumber = 1 then 2 else 1
        let moved : Game := { game with currentPlayer := some nextPlayer }
        .ok ({ st with games := st.games.set gameId moved },
          [.emit (.room gameId) (.opponentPlayed columnIndex currentPlayerNumber nextPlayer)])

/-- Handler of `requestResetBoard` (index.js 170-180). -/
def requestResetBoard (st : Server) (socketId gameId : JSString) :
    Except Fault (Server × List Effect) :=
  match st.games.get gameId with
  | none => .ok (st, [])
  | some game =>
    match game.players.find? (fun player => player.socketId != socketId) with
    | none => .ok (st, [])
    | some otherPlayer =>
      match game.players.find? (fun player => player.socketId == socketId) with
      | none => .error .typeError
      | some requester =>
        .ok (st, [.emit (.room otherPlayer.socketId) (.resetBoardRequested requester.name)])

/-- The value of `Array(6).fill(null).map(() => Array(7).fill(0))`. -/
def emptyGrid : List (List Nat) := List.replicate 6 (List.replicate 7 0)

/-- Handler of `confirmResetBoard` (index.js 182-195); `draw` is the value of
`Math.random()`. -/
def confirmResetBoard (st : Server) (gameId : JSString) (draw : ℚ) : Server × List Effect :=
  match st.games.get gameId with
  | none => (st, [])
  | some game =>
    let currentPlayer : Nat := if draw < 1 / 2 then 1 else 2
    let reset : Game :=
      { game with currentPlayer := some currentPlayer, gameState := .playing,
                  grid := some emptyGrid }
    ({ st with games := st.games.set gameId reset },
      [.emit (.room gameId) (.boardReset (some (currentPlayer, emptyGrid)))])

/-- Handler of `resetBoard` (index.js 197-205). -/
def resetBoard (st : Server) (gameId : JSString) : Server × List Effect :=
  match st.games.get gameId with
  | none => (st, [])
  | some game =>
    let reset : Game := { game with currentPlayer := some 1, gameState := .playing }
    ({ st with games := st.games.set gameId reset },
      [.emit (.room gameId) (.boardReset none)])

/-- Handler of `requestResetScores` (index.js 207-214). -/
def requestResetScores (st : Server) (socketId gameId : JSString) :
    Except Fault (Server × List Effect) :=
  match st.games.get gameId with
  | none => .ok (st, [])
  | some game =>
    match game.players.find? (fun player => player.socketId == socketId) with
    | none => .error .typeError
    | some requester =>
      .ok (st, [.emit (.roomExcept gameId socketId) (.resetScoresRequested requester.name)])

/-- Handler of `confirmResetScores` (index.js 216-221). -/
def confirmResetScores (st : Server) (gameId : JSString) : Server × List Effect :=
  match st.games.get gameId with
  | none => (st, [])
  | some _ => (st, [.emit (.room gameId) .resetScores])

/-- Handler of `resetScores` (index.js 223-228). -/
def resetScores (st : Server) (gameId : JSString) : Server × List Effect :=
  match st.games.get gameId with
  | none => (st, [])
  | some _ => (st, [.emit (.room gameId) .scoresReset])

/-- Handler of `rejectReset` (index.js 230-238). -/
def rejectReset (st : Server) (socketId gameId : JSString) :
    Except Fault (Server × List Effect) :=
  match st.games.get gameId with
  | none => .ok (st, [])
  | some game =>
    match game.players.find? (fun player => player.socketId == socketId) with
    | none => .error .typeError
    | some requestingPlayer =>
      .ok (st, [.emit (.room gameId) (.resetRejected requestingPlayer.name)])

/-- The notification of the `disconnect` callback (index.js 246-252) for a
socket found at `playerIndex`. -/
def disconnectNotice (gameId : JSString) (game : Game) (playerIndex : Nat) :
    Except Fault Effect :=
  if playerIndex = 0 then .ok (.emit (.room gameId) .hostLeft)
  else
    match game.players[0]?, game.players[playerIndex]? with
    | some host, some player => .ok (.emit (.room host.socketId) (.playerLeft player.name))
    | _, _ => .error .typeError

/-- The `leave` calls of the `disconnect` callback (index.js 255-259). -/
def disconnectLeaves (socketId gameId : JSString) (game : Game) : List Effect :=
  (game.players.filter (fun player => player.socketId != socketId)).map
    (fun player => .leave player.socketId gameId)

/-- The callback `disconnect` passes to `games.forEach` (index.js 243-261),
run on one entry: the new state and the effects of this call. -/
def disconnectGame (socketId : JSString) (st : Server) (gameId : JSString) (game : Game) :
    Except Fault (Server × List Effect) :=
  match findIndex (fun player => player.socketId == socketId) game.players with
  | none => .ok (st, [])
  | some playerIndex =>
    match disconnectNotice gameId game playerIndex with
    | .error fault => .error fault
    | .ok notice =>
      .ok ({ st with games := st.games.delete gameId },
        notice :: disconnectLeaves socketId gameId game)

/-- The loop of `games.forEach`, over the entries still to visit. The callback
deletes no entry but the one it is visiting, so the entries visited are those
present when the loop starts. -/
def disconnectEach (socketId : JSString) :
    List (JSString × Game) → Server → List Effect → Except Fault (Server × List Effect)
  | [], st, out => .ok (st, out)
  | (gameId, game) :: rest, st, out =>
    match disconnectGame socketId st gameId game with
    | .error fault => .error fault
    | .ok (st1, effects) => disconnectEach socketId rest st1 (out ++ effects)

/-- Handler of `disconnect` (index.js 242-262). -/
def disconnect (st : Server) (socketId : JSString) : Except Fault (Server × List Effect) :=
  disconnectEach socketId st.games st []

/-- Whether the socket is the `socketId` of one of the session's players. -/
def Game.hasSocket (game : Game) (socketId : JSString) : Bool :=
  game.players.any (fun player => player.socketId == socketId)

/-! ## Sequences of handler invocations -/

/-- An inbound event with its payload and the values of `uuid4()` and
`Math.random()` its handler consumes. `joinGameAcked` is the moment at which
the acknowledgements awaited by a `joinGame` call are complete. -/
inductive Event where
  | initSession (sessionId : Option JSString) (uuid : JSString)
  | createGame (playerName : JSString) (uuid : JSString)
  | joinGame (gameId : JSString) (playerName : JSString)
  | joinGameAcked (gameId : JSString) (draw : ℚ)
  | movePlayed (gameId : JSString) (columnIndex : Int)
  | requestResetBoard (gameId : JSString)
  | confirmResetBoard (gameId : JSString) (draw : ℚ)
  | resetBoard (gameId : JSString)
  | requestResetScores (gameId : JSString)
  | confirmResetScores (gameId : JSString)
  | resetScores (gameId : JSString)
  | rejectReset (gameId : JSString)
  | disconnect

/-- The state after the handler of one event has run for a socket; `none` when
the handler lets an exception escape.

A suspended `joinGame` holds an object of two players. When it resumes, that
object is either no longer in `games`, and then the state does not change, or
it is the entry under its game id; `joinGameAcked` is therefore enabled on
every entry of two or more players, which covers every resumption that changes
the state. -/
def step (lower : JSString → JSString) (st : Server) (socketId : JSString) :
    Event → Option Server
  | .initSession sessionId uuid => some (initSession st socketId sessionId uuid).1
  | .createGame playerName uuid => some (createGame st socketId playerName uuid).1
  | .joinGame gameId playerName => some (joinGame lower st socketId gameId playerName).1
  | .joinGameAcked gameId draw =>
    match st.games.get gameId with
    | none => none
    | some game =>
      if 2 ≤ game.players.length then
        some (joinGameResume st socketId gameId game true draw).1
      else none
  | .movePlayed gameId columnIndex =>
    (movePlayed st socketId gameId columnIndex).toOption.map Prod.fst
  | .requestResetBoard gameId => (requestResetBoard st socketId gameId).toOption.map Prod.fst
  | .confirmResetBoard gameId draw => some (confirmResetBoard st gameId draw).1
  | .resetBoard gameId => some (resetBoard st gameId).1
  | .requestResetScores gameId => (requestResetScores st socketId gameId).toOption.map Prod.fst
  | .confirmResetScores gameId => some (confirmResetScores st gameId).1
  | .resetScores gameId => some (resetScores st gameId).1
  | .rejectReset gameId => (rejectReset st socketId gameId).toOption.map Prod.fst
  | .disconnect => (disconnect st socketId).toOption.map Prod.fst

/-- The state after a sequence of events, each with the socket it comes from,
all of them permitted by `allowed`; `none` when one is not permitted or lets an
exception escape. -/
def run (lower : JSString → JSString) (allowed : Server → JSString → Event → Bool) :
    Server → List (JSString × Event) → Option Server
  | st, [] => some st
  | st, (socketId, event) :: rest =>
    if allowed st socketId event then
      match step lower st socketId event with
      | some st1 => run lower allowed st1 rest
      | none => none
    else none

/-- The states reachable from the empty server by invocations permitted by
`allowed`. -/
def Reachable (lower : JSString → JSString) (allowed : Server → JSString → Event → Bool)
    (st : Server) : Prop :=
  ∃ trace, run lower allowed Server.empty trace = some st

/-- Every invocation is permitted. -/
def anyInvocation (_ : Server) (_ : JSString) (_ : Event) : Bool := true

/-- Every invocation is permitted but a `joinGame` from a socket that is
already a player of the game it names. -/
def joinsByNewcomers (st : Server) (socketId : JSString) : Event → Bool
  | .joinGame gameId _ => (st.games.get gameId).all (fun game => !game.hasSocket socketId)
  | _ => true

/-- Every invocation is permitted but a `confirmResetBoard` or a `resetBoard`
that names a game which does not hold two players. -/
def resetsOnFullGames (st : Server) (_ : JSString) : Event → Bool
  | .confirmResetBoard gameId _ =>
    (st.games.get gameId).all (fun game => game.players.length == 2)
  | .resetBoard gameId => (st.games.get gameId).all (fun game => game.players.length == 2)
  | _ => true

/-! ## Specification-side definitions -/

/-- The checks of `createGame` in the order the specification gives them, each
with whether the input fails it. The length is that of the name as received. -/
def createGameChecks (playerName : JSString) : List (GameError × Bool) :=
  [(.EmptyUsernameError, (trim playerName).isEmpty),
   (.InvalidUsernameError, decide (playerName.length < 3 ∨ playerName.length > 20))]

/-- The checks of `joinGame` in the order the specification gives them, each
with whether the input fails it. A check on the session's players does not
fail when there is no session; the length is that of the name as received. -/
def joinGameChecks (lower : JSString → JSString) (st : Server) (gameId playerName : JSString) :
    List (GameError × Bool) :=
  [(.GameNotFoundError gameId, (st.games.get gameId).isNone),
   (.GameFullError, (st.games.get gameId).any (fun game => decide (2 ≤ game.players.length))),
   (.NotEnoughPlayerError,
      (st.games.get gameId).any (fun game => decide (game.players.length < 1))),
   (.EmptyUsernameError, (trim playerName).isEmpty),
   (.InvalidUsernameError, decide (playerName.length < 3 ∨ playerName.length > 20)),
   (.UsernameAlreadyUsedError,
      (st.games.get gameId).any (fun game =>
        game.players.any (fun player => lower player.name == lower playerName)))]

/-- The error of the first failing check of a list, if one fails. -/
def firstFailure (checks : List (GameError × Bool)) : Option GameError :=
  (checks.find? (fun check => check.2)).map (fun check => check.1)

/-- The texts of the gameError events among the effects, in order. -/
def gameErrors : List Effect → List JSString
  | [] => []
  | .emit _ (.gameError message) :: rest => message :: gameErrors rest
  | _ :: rest => gameErrors rest

/-- What the specification has `disconnect` send for one session: hostLeft to
the room of the game when the socket is the player at index 0; otherwise, when
it is the player at index 1, playerLeft with that player's name to the room of
the host's socket; nothing when the socket is neither. -/
def departureNotices (socketId gameId : JSString) (game : Game) : List (Target × Message) :=
  match game.players with
  | [] => []
  | host :: rest =>
    if host.socketId = socketId then [(.room gameId, .hostLeft)]
    else
      match rest with
      | [] => []
      | guest :: _ =>
        if guest.socketId = socketId then [(.room host.socketId, .playerLeft guest.name)]
        else []

/-- The session `createGame` stores for a caller. -/
def newGame (st : Server) (socketId playerName : JSString) : Game :=
  { players := [{ sessionId := st.playerSessions.get socketId, socketId := socketId,
                  name := playerName }],
    currentPlayer := none, gameState := .waiting, grid := none }

/-! ## Example states -/

/-- A value of `uuid4()`. -/
def sampleUuid : JSString := lit "01234567-89ab-4cde-8f01-23456789abcd"

/-- The name made of U+0130 (capital I with dot above) eleven times. -/
def dottedName : JSString := List.replicate 11 0x130

/-- The server after socket "s1" has created a game under `dottedName` on the
empty server. -/
def dottedServer : Server := (createGame Server.empty (lit "s1") dottedName sampleUuid).1

/-- A server holding one game "a1b2c3d4" with the two players "Alice" (socket "s1")
and "Bob" (socket "s2"), Alice to move. -/
def fullServer : Server :=
  { games := [(lit "a1b2c3d4",
      { players := [{ sessionId := none, socketId := lit "s1", name := lit "Alice" },
                    { sessionId := none, socketId := lit "s2", name := lit "Bob" }],
        currentPlayer := some 1, gameState := .waiting, grid := none })],
    playerSessions := [] }

/-- The session of `fullServer`. -/
def fullGame : Game :=
  { players := [{ sessionId := none, socketId := lit "s1", name := lit "Alice" },
                { sessionId := none, socketId := lit "s2", name := lit "Bob" }],
    currentPlayer := some 1, gameState := .waiting, grid := none }

/-- A server holding one game "a1b2c3d4" created by "Alice" on socket "s1". -/
def waitingServer : Server :=
  { games := [(lit "a1b2c3d4",
      { players := [{ sessionId := none, socketId := lit "s1", name := lit "Alice" }],
        currentPlayer := none, gameState := .waiting, grid := none })],
    playerSessions := [] }

/-- The session of `waitingServer`. -/
def waitingGame : Game :=
  { players := [{ sessionId := none, socketId := lit "s1", name := lit "Alice" }],
    currentPlayer := none, gameState := .waiting, grid := none }

/-- A server holding three games: "0a1b2c3d" of "Alice" (socket "s1") and "Bob"
(socket "s2"), "4e5f6a7b" of "Carol" (socket "s3") alone, and "8c9d0e1f" of "Bob" (socket
"s2") and "Dave" (socket "s4"). -/
def threeGames : Server :=
  { games :=
      [(lit "0a1b2c3d",
        { players := [{ sessionId := none, socketId := lit "s1", name := lit "Alice" },
                      { sessionId := none, socketId := lit "s2", name := lit "Bob" }],
          currentPlayer := some 2, gameState := .waiting, grid := none }),
       (lit "4e5f6a7b",
        { players := [{ sessionId := none, socketId := lit "s3", name := lit "Carol" }],
          currentPlayer := none, gameState := .waiting, grid := none }),
       (lit "8c9d0e1f",
        { players := [{ sessionId := none, socketId := lit "s2", name := lit "Bob" },
                      { sessionId := none, socketId := lit "s4", name := lit "Dave" }],
          currentPlayer := some 1, gameState := .waiting, grid := none })],
    playerSessions := [] }

/-- The server after "Alice" (socket "s1") has created a game on the empty
server. -/
def createdServer : Server :=
  (createGame Server.empty (lit "s1") (lit "Alice") sampleUuid).1

/-- The server after "Bob" (socket "s2") has joined the game of `createdServer`. -/
def joinedServer : Server :=
  (joinGame toLowerCase createdServer (lit "s2") (lit "01234567") (lit "Bob")).1

/-- The session of `joinedServer`. -/
def joinedGame : Game :=
  { players := [{ sessionId := none, socketId := lit "s1", name := lit "Alice" },
                { sessionId := none, socketId := lit "s2", name := lit "Bob" }],
    currentPlayer := none, gameState := .waiting, grid := none }

/-- Another value of `uuid4()`. -/
def otherUuid : JSString := lit "fedcba98-7654-4321-8fed-cba987654321"

/-- The server after "Alice" (socket "s1") has joined her own game of
`createdServer` under the name "Bob". -/
def selfJoinedServer : Server :=
  (joinGame toLowerCase createdServer (lit "s1") (lit "01234567") (lit "Bob")).1

/-- The server after `resetBoard` on the one-player game of `createdServer`. -/
def loneResetServer : Server := (resetBoard createdServer (lit "01234567")).1

/-- The server after `resetBoard` on the two-player game of `joinedServer`. -/
def fullResetServer : Server := (resetBoard joinedServer (lit "01234567")).1

/-! ## Lemmas on `Map` -/

theorem JSMap.get_set_self {β : Type} (m : JSMap β) (key : JSString) (value : β) :
    (m.set key value).get key = some value := by
  induction m with
  | nil => simp [JSMap.set, JSMap.get]
  | cons entry rest ih =>
    obtain ⟨k, v⟩ := entry
    by_cases h : k = key
    · simp [JSMap.set, JSMap.get, h]
    · simp [JSMap.set, JSMap.get, h, ih]

theorem JSMap.get_set_other {β : Type} (m : JSMap β) (key other : JSString) (value : β)
    (h : other ≠ key) : (m.set key value).get other = m.get other := by
  induction m with
  | nil => simp [JSMap.set, JSMap.get, Ne.symm h]
  | cons entry rest ih =>
    obtain ⟨k, v⟩ := entry
    by_cases hk : k = key
    · subst hk
      simp [JSMap.set, JSMap.get, Ne.symm h]
    · by_cases ho : k = other
      · subst ho
        simp [JSMap.set, JSMap.get, hk]
      · simp [JSMap.set, JSMap.get, hk, ho, ih]

theorem JSMap.set_of_not_mem {β : Type} (m : JSMap β) (key : JSString) (value : β)
    (h : key ∉ JSMap.keys m) : m.set key value = m ++ [(key, value)] := by
  induction m with
  | nil => simp [JSMap.set]
  | cons entry rest ih =>
    obtain ⟨k, v⟩ := entry
    simp only [JSMap.keys, List.map_cons, List.mem_cons, not_or] at h
    have hk : k ≠ key := fun e => h.1 e.symm
    simp [JSMap.set, hk, ih h.2]

theorem JSMap.get_eq_none_of_not_mem {β : Type} (m : JSMap β) (key : JSString)
    (h : key ∉ JSMap.keys m) : m.get key = none := by
  induction m with
  | nil => simp [JSMap.get]
  | cons entry rest ih =>
    obtain ⟨k, v⟩ := entry
    simp only [JSMap.keys, List.map_cons, List.mem_cons, not_or] at h
    have hk : k ≠ key := fun e => h.1 e.symm
    simp [JSMap.get, hk, ih h.2]

theorem JSMap.keys_set_of_get {β : Type} (m : JSMap β) (key : JSString) (old value : β)
    (h : m.get key = some old) : JSMap.keys (m.set key value) = JSMap.keys m := by
  induction m with
  | nil => simp [JSMap.get] at h
  | cons entry rest ih =>
    obtain ⟨k, v⟩ := entry
    by_cases hk : k = key
    · simp [JSMap.set, JSMap.keys, hk]
    · simp only [JSMap.get, hk, if_false] at h
      have := ih h
      simp only [JSMap.keys] at this
      simp [JSMap.set, JSMap.keys, hk, this]

theorem truthy_iff (s : JSString) : truthy s = true ↔ s ≠ [] := by
  cases s <;> simp [truthy]

/-! ## createGame and joinGame -/

theorem createGame_of_valid (st : Server) (socketId playerName uuid : JSString)
    (hne : trim playerName ≠ []) (h3 : 3 ≤ playerName.length) (h20 : playerName.length ≤ 20) :
    createGame st socketId playerName uuid =
      ({ st with games := st.games.set (uuid.take 8) (newGame st socketId playerName) },
        [.join socketId (uuid.take 8),
         .emit (.socket socketId) (.gameCreated (uuid.take 8) 1 playerName)]) := by
  have ht : truthy (trim playerName) = true := (truthy_iff _).2 hne
  have hlen : ¬ (playerName.length < 3 ∨ playerName.length > 20) := by omega
  simp [createGame, createGameBody, catchGameError, ht, hlen, newGame]

/-- C1 as stated fails: the name "abc" followed by 18 spaces has trimmed length
3, yet `createGame` rejects it with the InvalidUsername message and stores no
session, because the length test reads the untrimmed name (21 code units). -/
theorem createGame_rejects_padded_name :
    (3 ≤ (trim (lit "abc" ++ List.replicate 18 0x20)).length ∧
      (trim (lit "abc" ++ List.replicate 18 0x20)).length ≤ 20) ∧
    createGame Server.empty (lit "s1") (lit "abc" ++ List.replicate 18 0x20) sampleUuid =
      (Server.empty,
        [.emit (.socket (lit "s1")) (.gameError (GameError.message .InvalidUsernameError))]) := by
  decide

/-- C1, amended: for every connection and every playerName that is not
whitespace-only and whose untrimmed length is between 3 and 20, `createGame`
emits no gameError: its effects are the room join and one gameCreated with
playerId 1 sent to the caller, the session registry is untouched, the directory
maps the generated game id to a waiting session whose only player is the
caller, every other key is unchanged, and when the generated id is not yet a
key the directory is the old one with that one session appended. -/
theorem createGame_succeeds (st : Server) (socketId playerName uuid : JSString)
    (hne : trim playerName ≠ []) (h3 : 3 ≤ playerName.length) (h20 : playerName.length ≤ 20) :
    (createGame st socketId playerName uuid).2 =
        [.join socketId (uuid.take 8),
         .emit (.socket socketId) (.gameCreated (uuid.take 8) 1 playerName)] ∧
      (createGame st socketId playerName uuid).1.playerSessions = st.playerSessions ∧
      (createGame st socketId playerName uuid).1.games.get (uuid.take 8) =
        some { players := [{ sessionId := st.playerSessions.get socketId,
                             socketId := socketId, name := playerName }],
               currentPlayer := none, gameState := .waiting, grid := none } ∧
      (∀ other, other ≠ uuid.take 8 →
        (createGame st socketId playerName uuid).1.games.get other = st.games.get other) ∧
      (uuid.take 8 ∉ JSMap.keys st.games →
        (createGame st socketId playerName uuid).1.games =
          st.games ++ [(uuid.take 8,
            { players := [{ sessionId := st.playerSessions.get socketId,
                            socketId := socketId, name := playerName }],
              currentPlayer := none, gameState := .waiting, grid := none })]) := by
  rw [createGame_of_valid st socketId playerName uuid hne h3 h20]
  refine ⟨rfl, rfl, ?_, ?_, ?_⟩
  · exact JSMap.get_set_self _ _ _
  · intro other h
    exact JSMap.get_set_other _ _ _ _ h
  · intro h
    exact JSMap.set_of_not_mem _ _ _ h

/-- Witness of `createGame_succeeds`: "Alice" creates a game on the empty server. -/
theorem createGame_succeeds_witness :
    (trim (lit "Alice") ≠ [] ∧ 3 ≤ (lit "Alice").length ∧ (lit "Alice").length ≤ 20) ∧
    ((createGame Server.empty (lit "s1") (lit "Alice") sampleUuid).2 =
        [.join (lit "s1") (sampleUuid.take 8),
         .emit (.socket (lit "s1")) (.gameCreated (sampleUuid.take 8) 1 (lit "Alice"))] ∧
      (createGame Server.empty (lit "s1") (lit "Alice") sampleUuid).1.playerSessions =
        Server.empty.playerSessions ∧
      (createGame Server.empty (lit "s1") (lit "Alice") sampleUuid).1.games.get
          (sampleUuid.take 8) =
        some { players := [{ sessionId := Server.empty.playerSessions.get (lit "s1"),
                             socketId := lit "s1", name := lit "Alice" }],
               currentPlayer := none, gameState := .waiting, grid := none } ∧
      (∀ other, other ≠ sampleUuid.take 8 →
        (createGame Server.empty (lit "s1") (lit "Alice") sampleUuid).1.games.get other =
          Server.empty.games.get other) ∧
      (sampleUuid.take 8 ∉ JSMap.keys Server.empty.games →
        (createGame Server.empty (lit "s1") (lit "Alice") sampleUuid).1.games =
          Server.empty.games ++ [(sampleUuid.take 8,
            { players := [{ sessionId := Server.empty.playerSessions.get (lit "s1"),
                            socketId := lit "s1", name := lit "Alice" }],
              currentPlayer := none, gameState := .waiting, grid := none })])) :=
  ⟨by decide,
    createGame_succeeds Server.empty (lit "s1") (lit "Alice") sampleUuid
      (by decide) (by decide) (by decide)⟩

/-- C2 as stated fails: the name " a " is not whitespace-only and has trimmed
length 1, yet `createGame` accepts it (untrimmed length 3): a session is stored
and gameCreated is sent, no gameError. -/
theorem createGame_accepts_padded_short_name :
    (trim (lit " a ") ≠ [] ∧ (trim (lit " a ")).length < 3) ∧
    createGame Server.empty (lit "s1") (lit " a ") sampleUuid =
      ({ games := [(lit "01234567",
            { players := [{ sessionId := none, socketId := lit "s1", name := lit " a " }],
              currentPlayer := none, gameState := .waiting, grid := none })],
         playerSessions := [] },
        [.join (lit "s1") (lit "01234567"),
         .emit (.socket (lit "s1")) (.gameCreated (lit "01234567") 1 (lit " a "))]) := by
  decide

/-- C2, amended: for every playerName that is not whitespace-only and whose
untrimmed length is less than 3 or greater than 20, `createGame` leaves the
state unchanged and sends the caller the InvalidUsername message only, and so
does `joinGame` on an existing game holding exactly one player. -/
theorem invalid_username_rejected (lower : JSString → JSString) (st : Server)
    (socketId gameId playerName uuid : JSString)
    (hne : trim playerName ≠ [])
    (hlen : playerName.length < 3 ∨ playerName.length > 20) :
    createGame st socketId playerName uuid =
        (st, [.emit (.socket socketId) (.gameError (GameError.message .InvalidUsernameError))]) ∧
      ∀ game, st.games.get gameId = some game → game.players.length = 1 →
        joinGame lower st socketId gameId playerName =
          (st, [.emit (.socket socketId) (.gameError (GameError.message .InvalidUsernameError))]) := by
  have ht : truthy (trim playerName) = true := (truthy_iff _).2 hne
  refine ⟨?_, ?_⟩
  · simp [createGame, createGameBody, catchGameError, ht, hlen]
  · intro game hget hone
    simp [joinGame, joinGameBody, catchGameError, hget, hone, ht, hlen]

/-- Witness of `invalid_username_rejected`: the two-letter name "ab", given to
`createGame` and to a join of the game "a1b2c3d4" that "Alice" is waiting in. -/
theorem invalid_username_rejected_witness :
    (trim (lit "ab") ≠ [] ∧ ((lit "ab").length < 3 ∨ (lit "ab").length > 20) ∧
      waitingServer.games.get (lit "a1b2c3d4") = some waitingGame ∧
      waitingGame.players.length = 1) ∧
    createGame waitingServer (lit "s2") (lit "ab") sampleUuid =
      (waitingServer,
        [.emit (.socket (lit "s2")) (.gameError (GameError.message .InvalidUsernameError))]) ∧
    joinGame toLowerCase waitingServer (lit "s2") (lit "a1b2c3d4") (lit "ab") =
      (waitingServer,
        [.emit (.socket (lit "s2")) (.gameError (GameError.message .InvalidUsernameError))]) :=
  ⟨by decide,
    (invalid_username_rejected toLowerCase waitingServer (lit "s2") (lit "a1b2c3d4") (lit "ab")
      sampleUuid (by decide) (by decide)).1,
    (invalid_username_rejected toLowerCase waitingServer (lit "s2") (lit "a1b2c3d4") (lit "ab")
      sampleUuid (by decide) (by decide)).2 waitingGame (by decide) (by decide)⟩

/-- C3: for every gameId whose session holds 2 players and every playerName,
`joinGame` leaves the state unchanged and its only effect is one gameError with
the GameFull message sent to the caller. -/
theorem joinGame_full (lower : JSString → JSString) (st : Server)
    (socketId gameId playerName : JSString) (game : Game)
    (hget : st.games.get gameId = some game) (hfull : game.players.length = 2) :
    joinGame lower st socketId gameId playerName =
      (st, [.emit (.socket socketId) (.gameError (GameError.message .GameFullError))]) := by
  simp [joinGame, joinGameBody, catchGameError, hget, hfull]

/-- Witness of `joinGame_full`: a third connection joins a full game with an
empty name. -/
theorem joinGame_full_witness :
    (fullServer.games.get (lit "a1b2c3d4") = some fullGame ∧ fullGame.players.length = 2) ∧
    joinGame toLowerCase fullServer (lit "s3") (lit "a1b2c3d4") [] =
      (fullServer,
        [.emit (.socket (lit "s3")) (.gameError (GameError.message .GameFullError))]) :=
  ⟨by decide,
    joinGame_full toLowerCase fullServer (lit "s3") (lit "a1b2c3d4") [] fullGame
      (by decide) (by decide)⟩

/-- C4 as stated fails: after "İ" repeated 11 times (U+0130, 11 code units)
has created a game, a join under the lower-cased form of that name (22 code
units, equal to the stored name case-insensitively) is rejected with the
InvalidUsername message, not with UsernameAlreadyUsed: the length test comes
first. -/
theorem joinGame_colliding_name_too_long :
    (dottedServer.games.get (lit "01234567") =
        some { players := [{ sessionId := none, socketId := lit "s1", name := dottedName }],
               currentPlayer := none, gameState := .waiting, grid := none } ∧
      toLowerCase dottedName = toLowerCase (toLowerCase dottedName) ∧
      dottedName.length = 11 ∧ (toLowerCase dottedName).length = 22) ∧
    joinGame toLowerCase dottedServer (lit "s2") (lit "01234567") (toLowerCase dottedName) =
      (dottedServer,
        [.emit (.socket (lit "s2")) (.gameError (GameError.message .InvalidUsernameError))]) := by
  decide

/-- C4, amended: for every existing session holding exactly one player and
every playerName that is not whitespace-only, whose untrimmed length is between
3 and 20, and whose lower-cased form equals the lower-cased stored name of that
player, `joinGame` leaves the state unchanged (no player appended) and sends
the caller the UsernameAlreadyUsed message only. -/
theorem joinGame_username_already_used (lower : JSString → JSString) (st : Server)
    (socketId gameId playerName : JSString) (game : Game) (host : Player)
    (hget : st.games.get gameId = some game) (hone : game.players = [host])
    (hne : trim playerName ≠ []) (h3 : 3 ≤ playerName.length) (h20 : playerName.length ≤ 20)
    (hsame : lower host.name = lower playerName) :
    joinGame lower st socketId gameId playerName =
      (st, [.emit (.socket socketId)
        (.gameError (GameError.message .UsernameAlreadyUsedError))]) := by
  have ht : truthy (trim playerName) = true := (truthy_iff _).2 hne
  have hlen : ¬ (playerName.length < 3 ∨ playerName.length > 20) := by omega
  simp [joinGame, joinGameBody, catchGameError, hget, hone, ht, hlen, hsame]

/-- Witness of `joinGame_username_already_used`: "aLICE" joins the game of
"Alice". -/
theorem joinGame_username_already_used_witness :
    (waitingServer.games.get (lit "a1b2c3d4") = some waitingGame ∧
      waitingGame.players =
        [{ sessionId := none, socketId := lit "s1", name := lit "Alice" }] ∧
      trim (lit "aLICE") ≠ [] ∧ 3 ≤ (lit "aLICE").length ∧ (lit "aLICE").length ≤ 20 ∧
      toLowerCase (lit "Alice") = toLowerCase (lit "aLICE")) ∧
    joinGame toLowerCase waitingServer (lit "s2") (lit "a1b2c3d4") (lit "aLICE") =
      (waitingServer,
        [.emit (.socket (lit "s2"))
          (.gameError (GameError.message .UsernameAlreadyUsedError))]) :=
  ⟨by decide,
    joinGame_username_already_used toLowerCase waitingServer (lit "s2") (lit "a1b2c3d4")
      (lit "aLICE")
      waitingGame { sessionId := none, socketId := lit "s1", name := lit "Alice" }
      (by decide) (by decide) (by decide) (by decide) (by decide) (by decide)⟩

theorem createGameBody_thrown (st : Server) (socketId playerName uuid : JSString) :
    (createGameBody st socketId playerName uuid).thrown =
      firstFailure (createGameChecks playerName) := by
  unfold createGameBody createGameChecks firstFailure
  cases h : (trim playerName) with
  | nil => simp [truthy]
  | cons c cs =>
    by_cases hlen : playerName.length < 3 ∨ playerName.length > 20
    · simp [truthy, hlen]
    · simp [truthy, hlen]

theorem joinGameBody_thrown (lower : JSString → JSString) (st : Server)
    (socketId gameId playerName : JSString) :
    (joinGameBody lower st socketId gameId playerName).thrown =
      firstFailure (joinGameChecks lower st gameId playerName) := by
  unfold joinGameBody joinGameChecks firstFailure
  cases hget : st.games.get gameId with
  | none => simp
  | some game =>
    by_cases hfull : game.players.length ≥ 2
    · simp [hfull]
    · by_cases hfew : game.players.length < 1
      · have hnil : game.players = [] := List.length_eq_zero.mp (by omega)
        simp [hnil]
      · have hcons : game.players ≠ [] := fun e => hfew (by simp [e])
        cases h : (trim playerName) with
        | nil => simp [truthy, hfull, hfew, hcons]
        | cons c cs =>
          by_cases hlen : playerName.length < 3 ∨ playerName.length > 20
          · simp [truthy, hfull, hfew, hlen, hcons]
          · by_cases hused :
                game.players.any (fun player => lower player.name == lower playerName) = true
            · simp [truthy, hfull, hfew, hlen, hused, hcons]
            · simp [truthy, hfull, hfew, hlen, hused, hcons]

theorem createGameBody_of_thrown (st : Server) (socketId playerName uuid : JSString)
    (error : GameError) (h : (createGameBody st socketId playerName uuid).thrown = some error) :
    (createGameBody st socketId playerName uuid).server = st ∧
      (createGameBody st socketId playerName uuid).effects = [] := by
  unfold createGameBody at h ⊢
  split_ifs at h ⊢ <;> simp_all

theorem joinGameBody_of_thrown (lower : JSString → JSString) (st : Server)
    (socketId gameId playerName : JSString) (error : GameError)
    (h : (joinGameBody lower st socketId gameId playerName).thrown = some error) :
    (joinGameBody lower st socketId gameId playerName).server = st ∧
      (joinGameBody lower st socketId gameId playerName).effects = [] := by
  unfold joinGameBody at h ⊢
  cases hget : st.games.get gameId with
  | none => simp
  | some game =>
    simp only [hget] at h ⊢
    split_ifs at h ⊢ <;> simp_all

theorem catchGameError_of_thrown (socketId : JSString) (o : Outcome) (st : Server)
    (error : GameError) (h : o.thrown = some error) (hs : o.server = st ∧ o.effects = []) :
    catchGameError socketId o =
      (st, [.emit (.socket socketId) (.gameError error.message)]) := by
  simp [catchGameError, h, hs.1, hs.2]

theorem gameErrors_append (xs ys : List Effect) :
    gameErrors (xs ++ ys) = gameErrors xs ++ gameErrors ys := by
  induction xs with
  | nil => rfl
  | cons x rest ih =>
    cases x with
    | emit target msg => cases msg <;> simp [gameErrors, ih]
    | join a b => simp [gameErrors, ih]
    | leave a b => simp [gameErrors, ih]
    | log t => simp [gameErrors, ih]

theorem gameErrors_prepareGameEffects (gameId playerName : JSString) (players : List Player) :
    gameErrors (prepareGameEffects gameId playerName players) = [] := by
  cases players with
  | nil => rfl
  | cons host others =>
    simp only [prepareGameEffects, gameErrors]
    induction others with
    | nil => rfl
    | cons other rest ih => simpa [gameErrors] using ih

theorem gameErrors_createGameBody (st : Server) (socketId playerName uuid : JSString) :
    gameErrors (createGameBody st socketId playerName uuid).effects = [] := by
  unfold createGameBody
  split_ifs <;> simp [gameErrors]

theorem gameErrors_joinGameBody (lower : JSString → JSString) (st : Server)
    (socketId gameId playerName : JSString) :
    gameErrors (joinGameBody lower st socketId gameId playerName).effects = [] := by
  unfold joinGameBody
  cases hget : st.games.get gameId with
  | none => simp [gameErrors]
  | some game =>
    simp only []
    split_ifs <;> simp [gameErrors, gameErrors_prepareGameEffects]

theorem gameErrors_catchGameError (socketId : JSString) (o : Outcome)
    (h : gameErrors o.effects = []) :
    gameErrors (catchGameError socketId o).2 = o.thrown.toList.map GameError.message := by
  unfold catchGameError
  cases o.thrown with
  | none => simpa using h
  | some error => simp [gameErrors_append, h, gameErrors]

/-- C5: the error thrown by the body of `createGame` is that of the first
failing check in the order EmptyUsername, InvalidUsername, and the error thrown
by the body of `joinGame` is that of the first failing check in the order
GameNotFound, GameFull, NotEnoughPlayer, EmptyUsername, InvalidUsername,
UsernameAlreadyUsed; nothing is thrown exactly when no check fails; and the
gameError events each handler emits are the message of that first failing
check, or none when no check fails. -/
theorem validation_order (lower : JSString → JSString) (st : Server)
    (socketId gameId playerName uuid : JSString) :
    (createGameBody st socketId playerName uuid).thrown =
        firstFailure (createGameChecks playerName) ∧
      gameErrors (createGame st socketId playerName uuid).2 =
        (firstFailure (createGameChecks playerName)).toList.map GameError.message ∧
      (joinGameBody lower st socketId gameId playerName).thrown =
        firstFailure (joinGameChecks lower st gameId playerName) ∧
      gameErrors (joinGame lower st socketId gameId playerName).2 =
        (firstFailure (joinGameChecks lower st gameId playerName)).toList.map
          GameError.message := by
  refine ⟨createGameBody_thrown _ _ _ _, ?_, joinGameBody_thrown _ _ _ _ _, ?_⟩
  · rw [← createGameBody_thrown st socketId playerName uuid]
    exact gameErrors_catchGameError _ _ (gameErrors_createGameBody _ _ _ _)
  · rw [← joinGameBody_thrown lower st socketId gameId playerName]
    exact gameErrors_catchGameError _ _ (gameErrors_joinGameBody _ _ _ _ _)

/-- C6: whenever a check of `createGame` fails, and whenever a check of
`joinGame` fails, the handler returns the state it was given (directory,
sessions and registry) and its only effect is one gameError carrying the
message of the first failing check, sent to the calling socket. -/
theorem failure_leaves_state (lower : JSString → JSString) (st : Server)
    (socketId gameId playerName uuid : JSString) :
    (∀ error, firstFailure (createGameChecks playerName) = some error →
        createGame st socketId playerName uuid =
          (st, [.emit (.socket socketId) (.gameError error.message)])) ∧
      (∀ error, firstFailure (joinGameChecks lower st gameId playerName) = some error →
        joinGame lower st socketId gameId playerName =
          (st, [.emit (.socket socketId) (.gameError error.message)])) := by
  constructor
  · intro error h
    rw [← createGameBody_thrown st socketId playerName uuid] at h
    exact catchGameError_of_thrown _ _ _ _ h (createGameBody_of_thrown _ _ _ _ _ h)
  · intro error h
    rw [← joinGameBody_thrown lower st socketId gameId playerName] at h
    exact catchGameError_of_thrown _ _ _ _ h (joinGameBody_of_thrown _ _ _ _ _ _ h)

/-- Witness of `failure_leaves_state`: an empty name given to `createGame`,
and a join of the full game "a1b2c3d4". -/
theorem failure_leaves_state_witness :
    (firstFailure (createGameChecks []) = some .EmptyUsernameError ∧
      createGame fullServer (lit "s3") [] sampleUuid =
        (fullServer,
          [.emit (.socket (lit "s3")) (.gameError (GameError.message .EmptyUsernameError))])) ∧
    (firstFailure (joinGameChecks toLowerCase fullServer (lit "a1b2c3d4") []) =
        some .GameFullError ∧
      joinGame toLowerCase fullServer (lit "s3") (lit "a1b2c3d4") [] =
        (fullServer,
          [.emit (.socket (lit "s3")) (.gameError (GameError.message .GameFullError))])) :=
  ⟨⟨by decide,
      (failure_leaves_state toLowerCase fullServer (lit "s3") (lit "a1b2c3d4") [] sampleUuid).1
        _ (by decide)⟩,
    ⟨by decide,
      (failure_leaves_state toLowerCase fullServer (lit "s3") (lit "a1b2c3d4") [] sampleUuid).2
        _ (by decide)⟩⟩

/-! ## movePlayed -/

/-- C7: for every existing session and every connection that is not a member
whose player number (index + 1) equals currentPlayer, that is a member out of
turn (currentPlayer null included) or a non-member, `movePlayed` returns the
state unchanged and sends no event (it only logs). -/
theorem movePlayed_out_of_turn (st : Server) (socketId gameId : JSString) (columnIndex : Int)
    (game : Game) (hget : st.games.get gameId = some game)
    (hturn : ∀ playerIndex,
      findIndex (fun player => player.socketId == socketId) game.players = some playerIndex →
        game.currentPlayer ≠ some (playerIndex + 1)) :
    ∃ effects, movePlayed st socketId gameId columnIndex = .ok (st, effects) ∧
      messages effects = [] := by
  unfold movePlayed
  simp only [hget]
  cases hidx : findIndex (fun player => player.socketId == socketId) game.players with
  | none => exact ⟨_, rfl, rfl⟩
  | some playerIndex =>
    have h := hturn playerIndex hidx
    simp only [h, ne_eq, not_false_eq_true, if_true]
    exact ⟨_, rfl, rfl⟩

theorem findIndex_bob_fullGame (playerIndex : Nat)
    (h : findIndex (fun player => player.socketId == lit "s2") fullGame.players =
      some playerIndex) : playerIndex = 1 :=
  Option.some.inj ((show findIndex (fun player => player.socketId == lit "s2")
    fullGame.players = some 1 by decide).symm.trans h).symm

/-- Witness of `movePlayed_out_of_turn`: "Bob" (player 2) moves while it is
the turn of player 1. -/
theorem movePlayed_out_of_turn_witness :
    (fullServer.games.get (lit "a1b2c3d4") = some fullGame ∧
      ∀ playerIndex,
        findIndex (fun player => player.socketId == lit "s2") fullGame.players =
            some playerIndex →
          fullGame.currentPlayer ≠ some (playerIndex + 1)) ∧
    ∃ effects, movePlayed fullServer (lit "s2") (lit "a1b2c3d4") 3 = .ok (fullServer, effects) ∧
      messages effects = [] :=
  ⟨⟨by decide, fun playerIndex h => by rw [findIndex_bob_fullGame playerIndex h]; decide⟩,
    movePlayed_out_of_turn fullServer (lit "s2") (lit "a1b2c3d4") 3 fullGame (by decide)
      (fun playerIndex h => by rw [findIndex_bob_fullGame playerIndex h]; decide)⟩

/-- C8: for every existing session, every member connection whose player
number p = index + 1 equals currentPlayer and every columnIndex, `movePlayed`
sends exactly one event, opponentPlayed with that columnIndex, playedBy = p and
nextPlayer = (2 if p = 1, else 1), to the room of the game, and the new state
differs from the old one only in that session's currentPlayer, now nextPlayer:
players, gameState, grid, the other sessions and the registry are unchanged. -/
theorem movePlayed_in_turn (st : Server) (socketId gameId : JSString) (columnIndex : Int)
    (game : Game) (playerIndex : Nat) (hget : st.games.get gameId = some game)
    (hidx : findIndex (fun player => player.socketId == socketId) game.players =
      some playerIndex)
    (hcur : game.currentPlayer = some (playerIndex + 1)) :
    ∃ st1, movePlayed st socketId gameId columnIndex =
        .ok (st1, [.emit (.room gameId) (.opponentPlayed columnIndex (playerIndex + 1)
          (if playerIndex + 1 = 1 then 2 else 1))]) ∧
      st1.games.get gameId =
        some { players := game.players,
               currentPlayer := some (if playerIndex + 1 = 1 then 2 else 1),
               gameState := game.gameState, grid := game.grid } ∧
      (∀ other, other ≠ gameId → st1.games.get other = st.games.get other) ∧
      JSMap.keys st1.games = JSMap.keys st.games ∧
      st1.playerSessions = st.playerSessions := by
  refine ⟨⟨st.games.set gameId
      { game with currentPlayer := some (if playerIndex + 1 = 1 then 2 else 1) },
      st.playerSessions⟩, ?_, ?_, ?_, ?_, rfl⟩
  · simp [movePlayed, hget, hidx, hcur]
  · exact JSMap.get_set_self _ _ _
  · intro other h
    exact JSMap.get_set_other _ _ _ _ h
  · exact JSMap.keys_set_of_get _ _ _ _ hget

/-- Witness of `movePlayed_in_turn`: "Alice" (player 1) plays column 3 when it
is her turn. -/
theorem movePlayed_in_turn_witness :
    (fullServer.games.get (lit "a1b2c3d4") = some fullGame ∧
      findIndex (fun player => player.socketId == lit "s1") fullGame.players = some 0 ∧
      fullGame.currentPlayer = some (0 + 1)) ∧
    ∃ st1, movePlayed fullServer (lit "s1") (lit "a1b2c3d4") 3 =
        .ok (st1, [.emit (.room (lit "a1b2c3d4")) (.opponentPlayed 3 (0 + 1)
          (if 0 + 1 = 1 then 2 else 1))]) ∧
      st1.games.get (lit "a1b2c3d4") =
        some { players := fullGame.players,
               currentPlayer := some (if 0 + 1 = 1 then 2 else 1),
               gameState := fullGame.gameState, grid := fullGame.grid } ∧
      (∀ other, other ≠ lit "a1b2c3d4" → st1.games.get other = fullServer.games.get other) ∧
      JSMap.keys st1.games = JSMap.keys fullServer.games ∧
      st1.playerSessions = fullServer.playerSessions :=
  ⟨by decide,
    movePlayed_in_turn fullServer (lit "s1") (lit "a1b2c3d4") 3 fullGame 0
      (by decide) (by decide) (by decide)⟩

/-! ## disconnect -/

theorem findIndex_lt {α : Type} (p : α → Bool) (xs : List α) (i : Nat)
    (h : findIndex p xs = some i) : i < xs.length := by
  induction xs generalizing i with
  | nil => simp [findIndex] at h
  | cons x rest ih =>
    by_cases hp : p x = true
    · simp [findIndex, hp] at h
      subst h
      simp
    · simp only [findIndex, hp, Bool.false_eq_true, if_false, Option.map_eq_some'] at h
      obtain ⟨j, hj, rfl⟩ := h
      have := ih j hj
      simp only [List.length_cons]
      omega

theorem findIndex_eq_none_iff {α : Type} (p : α → Bool) (xs : List α) :
    findIndex p xs = none ↔ xs.any p = false := by
  induction xs with
  | nil => simp [findIndex]
  | cons x rest ih =>
    by_cases hp : p x = true
    · simp [findIndex, hp]
    · simp only [Bool.not_eq_true] at hp
      simp [findIndex, hp, ih]

theorem disconnectNotice_ok (gameId : JSString) (game : Game) (playerIndex : Nat)
    (h : playerIndex < game.players.length) :
    ∃ notice, disconnectNotice gameId game playerIndex = .ok notice := by
  unfold disconnectNotice
  by_cases h0 : playerIndex = 0
  · simp [h0]
  · have hpos : 0 < game.players.length := by omega
    simp only [h0, if_false]
    rw [List.getElem?_eq_getElem hpos, List.getElem?_eq_getElem h]
    exact ⟨_, rfl⟩

theorem messages_append (xs ys : List Effect) :
    messages (xs ++ ys) = messages xs ++ messages ys := by
  induction xs with
  | nil => rfl
  | cons x rest ih => cases x <;> simp [messages, ih]

theorem messages_disconnectLeaves (socketId gameId : JSString) (game : Game) :
    messages (disconnectLeaves socketId gameId game) = [] := by
  unfold disconnectLeaves
  induction game.players.filter (fun player => player.socketId != socketId) with
  | nil => rfl
  | cons player rest ih => simpa [messages] using ih

/-- The callback never faults; it deletes the entry exactly when the socket is
one of its players. -/
theorem disconnectGame_ok (socketId : JSString) (st : Server) (gameId : JSString)
    (game : Game) :
    ∃ effects, disconnectGame socketId st gameId game =
      .ok ({ st with games := if game.hasSocket socketId then st.games.delete gameId
                              else st.games }, effects) := by
  unfold disconnectGame
  cases hidx : findIndex (fun player => player.socketId == socketId) game.players with
  | none =>
    have hno : game.hasSocket socketId = false := (findIndex_eq_none_iff _ _).1 hidx
    simp [hno]
  | some playerIndex =>
    have hyes : game.hasSocket socketId = true := by
      cases hh : game.hasSocket socketId with
      | true => rfl
      | false =>
        have := (findIndex_eq_none_iff _ _).2 hh
        rw [hidx] at this
        cases this
    obtain ⟨notice, hn⟩ := disconnectNotice_ok gameId game playerIndex (findIndex_lt _ _ _ hidx)
    simp [hn, hyes]

/-- On a session of at most two players the callback sends what the
specification says. -/
theorem messages_disconnectGame (socketId : JSString) (st st1 : Server) (gameId : JSString)
    (game : Game) (effects : List Effect) (h2 : game.players.length ≤ 2)
    (h : disconnectGame socketId st gameId game = .ok (st1, effects)) :
    messages effects = departureNotices socketId gameId game := by
  obtain ⟨players, currentPlayer, gameState, grid⟩ := game
  simp only at h2
  match players, h2 with
  | [], _ =>
    simp [disconnectGame, findIndex] at h
    obtain ⟨-, rfl⟩ := h
    simp [messages, departureNotices]
  | [host], _ =>
    by_cases hh : host.socketId = socketId
    · simp [disconnectGame, findIndex, hh, disconnectNotice] at h
      obtain ⟨-, rfl⟩ := h
      simp [messages, departureNotices, hh, messages_disconnectLeaves]
    · simp [disconnectGame, findIndex, hh] at h
      obtain ⟨-, rfl⟩ := h
      simp [messages, departureNotices, hh]
  | [host, guest], _ =>
    by_cases hh : host.socketId = socketId
    · simp [disconnectGame, findIndex, hh, disconnectNotice] at h
      obtain ⟨-, rfl⟩ := h
      simp [messages, departureNotices, hh, messages_disconnectLeaves]
    · by_cases hg : guest.socketId = socketId
      · simp [disconnectGame, findIndex, hh, hg, disconnectNotice] at h
        obtain ⟨-, rfl⟩ := h
        simp [messages, departureNotices, hh, hg, messages_disconnectLeaves]
      · simp [disconnectGame, findIndex, hh, hg] at h
        obtain ⟨-, rfl⟩ := h
        simp [messages, departureNotices, hh, hg]
  | _ :: _ :: _ :: _, h3 => simp at h3

/-- The loop never faults: it removes the entries under the keys of the
visited sessions that hold the socket, and on sessions of at most two players
it sends, session after session, what the specification says. -/
theorem disconnectEach_ok (socketId : JSString) (entries : List (JSString × Game)) :
    ∀ (st : Server) (out : List Effect), ∃ effects,
      disconnectEach socketId entries st out =
        .ok ({ st with games := st.games.filter (fun entry =>
                !decide (entry.1 ∈ JSMap.keys
                  (entries.filter (fun visited => visited.2.hasSocket socketId)))) },
          out ++ effects) ∧
      ((∀ entry ∈ entries, entry.2.players.length ≤ 2) →
        messages effects =
          entries.flatMap (fun entry => departureNotices socketId entry.1 entry.2)) := by
  induction entries with
  | nil =>
    intro st out
    exact ⟨[], by simp [disconnectEach, JSMap.keys], fun _ => rfl⟩
  | cons entry rest ih =>
    obtain ⟨gameId, game⟩ := entry
    intro st out
    obtain ⟨effects1, h1⟩ := disconnectGame_ok socketId st gameId game
    obtain ⟨effects2, h2, hm2⟩ := ih
      { st with games := if game.hasSocket socketId then st.games.delete gameId else st.games }
      (out ++ effects1)
    refine ⟨effects1 ++ effects2, ?_, ?_⟩
    · simp only [disconnectEach, h1, h2, List.append_assoc]
      congr 2
      cases hh : game.hasSocket socketId with
      | true =>
        simp only [if_true, JSMap.delete, List.filter_filter, List.filter_cons, hh, JSMap.keys,
          List.map_cons, List.mem_cons]
        congr 1
        apply List.filter_congr
        intro x _
        by_cases hx : x.1 = gameId <;> simp [hx, JSMap.keys, Bool.and_comm]
      | false =>
        simp [List.filter_cons, hh]
    · intro hall
      have hrest : ∀ e ∈ rest, e.2.players.length ≤ 2 :=
        fun e he => hall e (List.mem_cons_of_mem _ he)
      have hgame : game.players.length ≤ 2 := hall (gameId, game) (List.mem_cons_self _ _)
      rw [messages_append, hm2 hrest, messages_disconnectGame socketId st _ gameId game
        effects1 hgame h1]
      simp [List.flatMap_cons]

theorem filter_keys_eq_filter_hasSocket (socketId : JSString) (games : JSMap Game)
    (hwf : JSMap.WellFormed games) :
    games.filter (fun entry =>
        !decide (entry.1 ∈ JSMap.keys
          (games.filter (fun visited => visited.2.hasSocket socketId)))) =
      games.filter (fun entry => !entry.2.hasSocket socketId) := by
  apply List.filter_congr
  intro entry hentry
  congr 1
  cases hh : entry.2.hasSocket socketId with
  | true =>
    simp only [decide_eq_true_eq, JSMap.keys, List.mem_map, List.mem_filter]
    exact ⟨entry, ⟨hentry, hh⟩, rfl⟩
  | false =>
    simp only [decide_eq_false_iff_not, JSMap.keys, List.mem_map, List.mem_filter, not_exists,
      not_and]
    rintro other ⟨hother, hsock⟩ hkey
    have : other = entry := List.inj_on_of_nodup_map hwf hother hentry hkey
    rw [this, hh] at hsock
    cases hsock

/-- C9: for every directory (a map: no key twice) and every connection c, the
`disconnect` handler returns, and the directory afterwards consists of exactly
the entries of the prior directory whose session does not have c among its
players, in the same order and unchanged; the registry is untouched. -/
theorem disconnect_removes_sessions (st : Server) (socketId : JSString)
    (hwf : JSMap.WellFormed st.games) :
    ∃ effects, disconnect st socketId =
      .ok ({ st with games := st.games.filter (fun entry => !entry.2.hasSocket socketId) },
        effects) := by
  obtain ⟨effects, h, -⟩ := disconnectEach_ok socketId st.games st []
  refine ⟨effects, ?_⟩
  rw [disconnect, h, filter_keys_eq_filter_hasSocket socketId st.games hwf]
  simp

/-- Witness of `disconnect_removes_sessions`: "Bob" (socket "s2"), guest of
"0a1b2c3d" and host of "8c9d0e1f", disconnects; only "4e5f6a7b" survives. -/
theorem disconnect_removes_sessions_witness :
    JSMap.WellFormed threeGames.games ∧
    ∃ effects, disconnect threeGames (lit "s2") =
      .ok ({ games := [(lit "4e5f6a7b",
                { players := [{ sessionId := none, socketId := lit "s3", name := lit "Carol" }],
                  currentPlayer := none, gameState := .waiting, grid := none })],
             playerSessions := [] },
        effects) :=
  ⟨by decide, by
    obtain ⟨effects, h⟩ := disconnect_removes_sessions threeGames (lit "s2") (by decide)
    have hs : ({ threeGames with
        games := threeGames.games.filter (fun entry => !entry.2.hasSocket (lit "s2")) } : Server) =
        { games := [(lit "4e5f6a7b",
            { players := [{ sessionId := none, socketId := lit "s3", name := lit "Carol" }],
              currentPlayer := none, gameState := .waiting, grid := none })],
          playerSessions := [] } := by decide
    exact ⟨effects, by rw [h, hs]⟩⟩

/-- C10: when every session has at most two players, the `disconnect` handler
returns and the events it sends are, session after session in directory order:
for a session whose player at index 0 is c, hostLeft to the room of the game
and nothing else; for a session whose player at index 1 (and not index 0) is c,
one playerLeft carrying that player's stored name to the room of the host's
socket and nothing else; for a session without c, nothing. -/
theorem disconnect_notices (st : Server) (socketId : JSString)
    (h2 : ∀ entry ∈ st.games, entry.2.players.length ≤ 2) :
    ∃ st1 effects, disconnect st socketId = .ok (st1, effects) ∧
      messages effects =
        st.games.flatMap (fun entry => departureNotices socketId entry.1 entry.2) := by
  obtain ⟨effects, h, hm⟩ := disconnectEach_ok socketId st.games st []
  exact ⟨_, effects, by rw [disconnect, h, List.nil_append], hm h2⟩

/-- Witness of `disconnect_notices`: "Bob" (socket "s2") disconnects; the host
of "0a1b2c3d" gets playerLeft with the name "Bob" and the room "8c9d0e1f" gets hostLeft. -/
theorem disconnect_notices_witness :
    (∀ entry ∈ threeGames.games, entry.2.players.length ≤ 2) ∧
    ∃ st1 effects, disconnect threeGames (lit "s2") = .ok (st1, effects) ∧
      messages effects =
        [(.room (lit "s1"), .playerLeft (lit "Bob")), (.room (lit "8c9d0e1f"), .hostLeft)] :=
  ⟨by decide,
    (disconnect_notices threeGames (lit "s2") (by decide)).imp
      (fun _ h => h.imp (fun _ h => ⟨h.1, h.2.trans (by decide)⟩))⟩

/-! ## confirmResetBoard -/

theorem startingPlayer_cases (draw : ℚ) :
    (if draw < 1 / 2 then 1 else 2 : Nat) = 1 ∨ (if draw < 1 / 2 then 1 else 2 : Nat) = 2 := by
  by_cases h : draw < 1 / 2
  · exact Or.inl (if_pos h)
  · exact Or.inr (if_neg h)

/-- C11: for a missing game `confirmResetBoard` changes nothing and emits
nothing; for an existing session and every draw it stores a grid of exactly 6
rows of exactly 7 cells, all 0, sets currentPlayer to 1 when the draw is below
1/2 and to 2 otherwise, sets the state to playing, keeps the players, leaves
the other sessions and the registry alone, and sends the room of the game one
boardReset whose startingPlayer is the new currentPlayer and whose grid is the
new grid. -/
theorem confirmResetBoard_spec (st : Server) (gameId : JSString) (draw : ℚ) :
    (st.games.get gameId = none → confirmResetBoard st gameId draw = (st, [])) ∧
    (∀ game, st.games.get gameId = some game →
      ∃ st1 grid startingPlayer,
        confirmResetBoard st gameId draw =
          (st1, [.emit (.room gameId) (.boardReset (some (startingPlayer, grid)))]) ∧
        st1.games.get gameId =
          some { players := game.players, currentPlayer := some startingPlayer,
                 gameState := .playing, grid := some grid } ∧
        grid.length = 6 ∧ (∀ row ∈ grid, row.length = 7 ∧ ∀ cell ∈ row, cell = 0) ∧
        startingPlayer = (if draw < 1 / 2 then 1 else 2) ∧
        (startingPlayer = 1 ∨ startingPlayer = 2) ∧
        (∀ other, other ≠ gameId → st1.games.get other = st.games.get other) ∧
        st1.playerSessions = st.playerSessions) := by
  constructor
  · intro hnone
    simp [confirmResetBoard, hnone]
  · intro game hget
    refine ⟨(confirmResetBoard st gameId draw).1, emptyGrid, if draw < 1 / 2 then 1 else 2,
      ?_, ?_, ?_, ?_, rfl, startingPlayer_cases draw, ?_, ?_⟩
    · simp only [confirmResetBoard, hget]
    · simp only [confirmResetBoard, hget]
      exact JSMap.get_set_self _ _ _
    · simp [emptyGrid]
    · intro row hrow
      simp only [emptyGrid, List.mem_replicate] at hrow
      obtain ⟨-, rfl⟩ := hrow
      refine ⟨by simp, ?_⟩
      intro cell hcell
      exact (List.mem_replicate.1 hcell).2
    · intro other h
      simp only [confirmResetBoard, hget]
      exact JSMap.get_set_other _ _ _ _ h
    · simp only [confirmResetBoard, hget]

/-- Witness of `confirmResetBoard_spec`: a reset of the game of "Alice" and
"Bob" with the draw 1/4, and a reset of a game the empty server does not have. -/
theorem confirmResetBoard_spec_witness :
    (Server.empty.games.get (lit "a1b2c3d4") = none ∧
      confirmResetBoard Server.empty (lit "a1b2c3d4") (1 / 4) = (Server.empty, [])) ∧
    (fullServer.games.get (lit "a1b2c3d4") = some fullGame ∧
      ∃ st1 grid startingPlayer,
        confirmResetBoard fullServer (lit "a1b2c3d4") (1 / 4) =
          (st1, [.emit (.room (lit "a1b2c3d4")) (.boardReset (some (startingPlayer, grid)))]) ∧
        st1.games.get (lit "a1b2c3d4") =
          some { players := fullGame.players, currentPlayer := some startingPlayer,
                 gameState := .playing, grid := some grid } ∧
        grid.length = 6 ∧ (∀ row ∈ grid, row.length = 7 ∧ ∀ cell ∈ row, cell = 0) ∧
        startingPlayer = (if (1 / 4 : ℚ) < 1 / 2 then 1 else 2) ∧
        (startingPlayer = 1 ∨ startingPlayer = 2) ∧
        (∀ other, other ≠ lit "a1b2c3d4" →
          st1.games.get other = fullServer.games.get other) ∧
        st1.playerSessions = fullServer.playerSessions) :=
  ⟨⟨by decide, (confirmResetBoard_spec Server.empty (lit "a1b2c3d4") (1 / 4)).1 (by decide)⟩,
    ⟨by decide,
      (confirmResetBoard_spec fullServer (lit "a1b2c3d4") (1 / 4)).2 fullGame (by decide)⟩⟩

/-! ## The rendezvous of joinGame -/

/-- C12: for every successful `joinGame` on a session whose single player is
the host (the name is not whitespace-only, its length is between 3 and 20 and
its lower-cased form differs from that of the host's name): the effects up to
the `await` are the room join and exactly two prepareGame events, one to the
room of the host's socket with playerId 1, the host's name and the joiner's
name as opponent, one to the room of the joiner's socket with playerId 2, the
joiner's name and the host's name as opponent; the session then holds the host
at index 0 and the joiner at index 1; and when the acknowledgements are
complete, whatever happened to the other fields of the session meanwhile, the
only effect is one gameStarted sent to the room of the game, whose players are
the host's name and the joiner's name and whose startingPlayer is 1 or 2 and
is the currentPlayer stored in the session if it is still in the directory. -/
theorem joinGame_rendezvous (lower : JSString → JSString) (st : Server)
    (socketId gameId playerName : JSString) (game : Game) (host : Player)
    (hget : st.games.get gameId = some game) (hone : game.players = [host])
    (hne : trim playerName ≠ []) (h3 : 3 ≤ playerName.length) (h20 : playerName.length ≤ 20)
    (hfree : lower host.name ≠ lower playerName) :
    ∃ st1,
      joinGame lower st socketId gameId playerName =
        (st1, [.join socketId gameId,
               .emit (.room host.socketId) (.prepareGame gameId 1 host.name playerName),
               .emit (.room socketId) (.prepareGame gameId 2 playerName host.name)]) ∧
      st1.games.get gameId =
        some { players := [host, { sessionId := st.playerSessions.get socketId,
                                   socketId := socketId, name := playerName }],
               currentPlayer := game.currentPlayer, gameState := game.gameState,
               grid := game.grid } ∧
      ∀ (st2 : Server) (joined : Game) (attached : Bool) (draw : ℚ),
        joined.players = [host, { sessionId := st.playerSessions.get socketId,
                                  socketId := socketId, name := playerName }] →
        ∃ st3 startingPlayer,
          joinGameResume st2 socketId gameId joined attached draw =
            (st3, [.emit (.room gameId)
              (.gameStarted startingPlayer host.name playerName)]) ∧
          (startingPlayer = 1 ∨ startingPlayer = 2) ∧
          (attached = true →
            st3.games.get gameId =
              some { players := joined.players, currentPlayer := some startingPlayer,
                     gameState := joined.gameState, grid := joined.grid }) := by
  have ht : truthy (trim playerName) = true := (truthy_iff _).2 hne
  have hlen : ¬ (playerName.length < 3 ∨ playerName.length > 20) := by omega
  refine ⟨(joinGame lower st socketId gameId playerName).1, ?_, ?_, ?_⟩
  · simp [joinGame, joinGameBody, catchGameError, hget, hone, ht, hlen, hfree,
      prepareGameEffects]
  · simp only [joinGame, joinGameBody, catchGameError, hget, hone]
    simp [ht, hlen, hfree, JSMap.get_set_self]
  · intro st2 joined attached draw hjoined
    refine ⟨(joinGameResume st2 socketId gameId joined attached draw).1,
      if draw < 1 / 2 then 1 else 2, ?_, startingPlayer_cases draw, ?_⟩
    · simp [joinGameResume, hjoined]
    · intro hatt
      simp only [joinGameResume, hjoined, hatt, if_true]
      exact JSMap.get_set_self _ _ _

/-- Witness of `joinGame_rendezvous`: "Bob" (socket "s2") joins the game that
"Alice" (socket "s1") is waiting in. -/
theorem joinGame_rendezvous_witness :
    (waitingServer.games.get (lit "a1b2c3d4") = some waitingGame ∧
      waitingGame.players =
        [{ sessionId := none, socketId := lit "s1", name := lit "Alice" }] ∧
      trim (lit "Bob") ≠ [] ∧ 3 ≤ (lit "Bob").length ∧ (lit "Bob").length ≤ 20 ∧
      toLowerCase (lit "Alice") ≠ toLowerCase (lit "Bob")) ∧
    ∃ st1,
      joinGame toLowerCase waitingServer (lit "s2") (lit "a1b2c3d4") (lit "Bob") =
        (st1, [.join (lit "s2") (lit "a1b2c3d4"),
               .emit (.room (lit "s1"))
                 (.prepareGame (lit "a1b2c3d4") 1 (lit "Alice") (lit "Bob")),
               .emit (.room (lit "s2"))
                 (.prepareGame (lit "a1b2c3d4") 2 (lit "Bob") (lit "Alice"))]) ∧
      st1.games.get (lit "a1b2c3d4") =
        some { players := [{ sessionId := none, socketId := lit "s1", name := lit "Alice" },
                           { sessionId := waitingServer.playerSessions.get (lit "s2"),
                             socketId := lit "s2", name := lit "Bob" }],
               currentPlayer := waitingGame.currentPlayer, gameState := waitingGame.gameState,
               grid := waitingGame.grid } ∧
      ∀ (st2 : Server) (joined : Game) (attached : Bool) (draw : ℚ),
        joined.players =
          [{ sessionId := none, socketId := lit "s1", name := lit "Alice" },
           { sessionId := waitingServer.playerSessions.get (lit "s2"),
             socketId := lit "s2", name := lit "Bob" }] →
        ∃ st3 startingPlayer,
          joinGameResume st2 (lit "s2") (lit "a1b2c3d4") joined attached draw =
            (st3, [.emit (.room (lit "a1b2c3d4"))
              (.gameStarted startingPlayer (lit "Alice") (lit "Bob"))]) ∧
          (startingPlayer = 1 ∨ startingPlayer = 2) ∧
          (attached = true →
            st3.games.get (lit "a1b2c3d4") =
              some { players := joined.players, currentPlayer := some startingPlayer,
                     gameState := joined.gameState, grid := joined.grid }) :=
  ⟨by decide,
    joinGame_rendezvous toLowerCase waitingServer (lit "s2") (lit "a1b2c3d4") (lit "Bob")
      waitingGame { sessionId := none, socketId := lit "s1", name := lit "Alice" }
      (by decide) (by decide) (by decide) (by decide) (by decide) (by decide)⟩

/-- C13 fails on the code: "Alice" creates a game, "Bob" joins it, the
acknowledgements arrive and gameStarted is broadcast (draw 1/4, so player 1
starts), and the state of the session is still waiting. -/
theorem joinGame_started_still_waiting :
    joinedServer.games.get (lit "01234567") = some joinedGame ∧
    joinGameResume joinedServer (lit "s2") (lit "01234567") joinedGame true (1 / 4) =
      ({ games := [(lit "01234567",
            { players := [{ sessionId := none, socketId := lit "s1", name := lit "Alice" },
                          { sessionId := none, socketId := lit "s2", name := lit "Bob" }],
              currentPlayer := some 1, gameState := .waiting, grid := none })],
         playerSessions := [] },
        [.emit (.room (lit "01234567")) (.gameStarted 1 (lit "Alice") (lit "Bob"))]) := by
  refine ⟨by decide, ?_⟩
  have hdraw : ((1 : ℚ) / 4 < 1 / 2) := by norm_num
  simp only [joinGameResume, hdraw, if_true, joinedGame]
  decide

/-! ## initSession -/

theorem JSMap.set_of_get_eq {β : Type} (m : JSMap β) (key : JSString) (value : β)
    (h : m.get key = some value) : m.set key value = m := by
  induction m with
  | nil => simp [JSMap.get] at h
  | cons entry rest ih =>
    obtain ⟨k, v⟩ := entry
    by_cases hk : k = key
    · simp only [JSMap.get, hk, if_true, Option.some.injEq] at h
      simp [JSMap.set, hk, h]
    · simp only [JSMap.get, hk, if_false] at h
      simp [JSMap.set, hk, ih h]

/-- C17 as stated fails: with no sessionId supplied, the first `initSession`
binds the first generated identifier and the second call binds the second one,
so the binding after two calls differs from the binding after one. -/
theorem initSession_twice_rebinds :
    sampleUuid ≠ otherUuid ∧
    (initSession Server.empty (lit "s1") none sampleUuid).1.playerSessions.get (lit "s1") =
      some sampleUuid ∧
    (initSession (initSession Server.empty (lit "s1") none sampleUuid).1 (lit "s1") none
        otherUuid).1.playerSessions.get (lit "s1") = some otherUuid := by
  decide

/-- C17, amended: for every connection, every registry state and every
supplied non-empty sessionId, a second `initSession` with the same argument
changes nothing and emits nothing, the binding being the supplied identifier
after one call as after two; when the sessionId is absent or empty, each call
binds the identifier generated for it and announces it with sessionCreated, so
the binding after the second call is the second identifier. -/
theorem initSession_twice (st : Server) (socketId : JSString) (sessionId : Option JSString)
    (uuid1 uuid2 : JSString) :
    (∀ supplied, sessionId = some supplied → supplied ≠ [] →
      (initSession st socketId sessionId uuid1).1.playerSessions.get socketId = some supplied ∧
      initSession (initSession st socketId sessionId uuid1).1 socketId sessionId uuid2 =
        ((initSession st socketId sessionId uuid1).1, [])) ∧
    ((sessionId = none ∨ sessionId = some []) →
      initSession st socketId sessionId uuid1 =
        ({ st with playerSessions := st.playerSessions.set socketId uuid1 },
          [.emit (.socket socketId) (.sessionCreated uuid1)]) ∧
      (initSession st socketId sessionId uuid1).1.playerSessions.get socketId = some uuid1 ∧
      (initSession (initSession st socketId sessionId uuid1).1 socketId sessionId
        uuid2).1.playerSessions.get socketId = some uuid2 ∧
      (initSession (initSession st socketId sessionId uuid1).1 socketId sessionId uuid2).2 =
        [.emit (.socket socketId) (.sessionCreated uuid2)]) := by
  constructor
  · rintro supplied rfl hne
    have ht : truthy supplied = true := (truthy_iff _).2 hne
    have hbound : (st.playerSessions.set socketId supplied).get socketId = some supplied :=
      JSMap.get_set_self _ _ _
    refine ⟨by simpa [initSession, ht] using hbound, ?_⟩
    simp [initSession, ht, JSMap.set_of_get_eq _ _ _ hbound]
  · intro h
    rcases h with rfl | rfl <;>
      simp [initSession, truthy, JSMap.get_set_self]

/-- Witness of `initSession_twice`: socket "s1" sends the session id "abcd"
twice, and socket "s1" sends no session id twice. -/
theorem initSession_twice_witness :
    ((some (lit "abcd") = some (lit "abcd") ∧ lit "abcd" ≠ []) ∧
      (initSession Server.empty (lit "s1") (some (lit "abcd")) sampleUuid).1.playerSessions.get
          (lit "s1") = some (lit "abcd") ∧
      initSession (initSession Server.empty (lit "s1") (some (lit "abcd")) sampleUuid).1
          (lit "s1") (some (lit "abcd")) otherUuid =
        ((initSession Server.empty (lit "s1") (some (lit "abcd")) sampleUuid).1, [])) ∧
    (((none : Option JSString) = none ∨ (none : Option JSString) = some []) ∧
      (initSession (initSession Server.empty (lit "s1") none sampleUuid).1 (lit "s1") none
        otherUuid).1.playerSessions.get (lit "s1") = some otherUuid) :=
  ⟨⟨by decide,
      (initSession_twice Server.empty (lit "s1") (some (lit "abcd")) sampleUuid otherUuid).1
        (lit "abcd") rfl (by decide)⟩,
    ⟨by decide,
      ((initSession_twice Server.empty (lit "s1") none sampleUuid otherUuid).2
        (Or.inl rfl)).2.2.1⟩⟩

/-! ## requestResetBoard and the uncaught error of movePlayed -/

/-- C18: for every existing session with two players on distinct connections,
`requestResetBoard` from either of them changes no state and sends exactly one
resetBoardRequested, to the room of the other player's socket, whose
requestedBy is the stored name of the requester; when the requester is the only
player of the session, or the game does not exist, it changes nothing and sends
nothing. -/
theorem requestResetBoard_spec (st : Server) (gameId : JSString) :
    (∀ requester, st.games.get gameId = none →
      requestResetBoard st requester gameId = .ok (st, [])) ∧
    (∀ game player, st.games.get gameId = some game → game.players = [player] →
      requestResetBoard st player.socketId gameId = .ok (st, [])) ∧
    (∀ game first second, st.games.get gameId = some game → game.players = [first, second] →
      first.socketId ≠ second.socketId →
      requestResetBoard st first.socketId gameId =
          .ok (st, [.emit (.room second.socketId) (.resetBoardRequested first.name)]) ∧
        requestResetBoard st second.socketId gameId =
          .ok (st, [.emit (.room first.socketId) (.resetBoardRequested second.name)])) := by
  refine ⟨?_, ?_, ?_⟩
  · intro requester hnone
    simp [requestResetBoard, hnone]
  · intro game player hget hone
    simp [requestResetBoard, hget, hone]
  · intro game first second hget htwo hne
    have hne2 : second.socketId ≠ first.socketId := fun e => hne e.symm
    have hb : (first.socketId != second.socketId) = true := by simp [bne_iff_ne, hne]
    have hb2 : (second.socketId != first.socketId) = true := by simp [bne_iff_ne, hne2]
    have hc : (first.socketId == second.socketId) = false := by simp [hne]
    have hc2 : (second.socketId == first.socketId) = false := by simp [hne2]
    constructor
    · simp [requestResetBoard, hget, htwo, List.find?, hb2]
    · simp [requestResetBoard, hget, htwo, List.find?, hb, hc]

/-- Witness of `requestResetBoard_spec`: in the game of "Alice" (socket "s1")
and "Bob" (socket "s2"), each asks in turn; "Alice" asks while alone in her
game; and a request names a game the empty server does not have. -/
theorem requestResetBoard_spec_witness :
    (Server.empty.games.get (lit "a1b2c3d4") = none ∧
      requestResetBoard Server.empty (lit "s1") (lit "a1b2c3d4") = .ok (Server.empty, [])) ∧
    (waitingServer.games.get (lit "a1b2c3d4") = some waitingGame ∧
      waitingGame.players = [{ sessionId := none, socketId := lit "s1", name := lit "Alice" }] ∧
      requestResetBoard waitingServer (lit "s1") (lit "a1b2c3d4") = .ok (waitingServer, [])) ∧
    (fullServer.games.get (lit "a1b2c3d4") = some fullGame ∧
      fullGame.players = [{ sessionId := none, socketId := lit "s1", name := lit "Alice" },
                          { sessionId := none, socketId := lit "s2", name := lit "Bob" }] ∧
      lit "s1" ≠ lit "s2" ∧
      requestResetBoard fullServer (lit "s1") (lit "a1b2c3d4") =
        .ok (fullServer, [.emit (.room (lit "s2")) (.resetBoardRequested (lit "Alice"))]) ∧
      requestResetBoard fullServer (lit "s2") (lit "a1b2c3d4") =
        .ok (fullServer, [.emit (.room (lit "s1")) (.resetBoardRequested (lit "Bob"))])) :=
  ⟨⟨by decide,
      (requestResetBoard_spec Server.empty (lit "a1b2c3d4")).1 (lit "s1") (by decide)⟩,
    ⟨by decide, by decide,
      (requestResetBoard_spec waitingServer (lit "a1b2c3d4")).2.1 waitingGame
        { sessionId := none, socketId := lit "s1", name := lit "Alice" }
        (by decide) (by decide)⟩,
    ⟨by decide, by decide, by decide,
      (requestResetBoard_spec fullServer (lit "a1b2c3d4")).2.2 fullGame
        { sessionId := none, socketId := lit "s1", name := lit "Alice" }
        { sessionId := none, socketId := lit "s2", name := lit "Bob" }
        (by decide) (by decide) (by decide)⟩⟩

/-- C19: for every gameId absent from the directory `movePlayed` ends with the
GameNotFound error escaping the handler, before any assignment or emission (the
result is the fault alone: no new state, no effect, no gameError); for every
gameId present it returns normally. -/
theorem movePlayed_raises_iff_missing (st : Server) (socketId gameId : JSString)
    (columnIndex : Int) :
    (st.games.get gameId = none →
      movePlayed st socketId gameId columnIndex = .error (.gameNotFound gameId)) ∧
    (∀ game, st.games.get gameId = some game →
      ∃ st1 effects, movePlayed st socketId gameId columnIndex = .ok (st1, effects) ∧
        gameErrors effects = []) := by
  constructor
  · intro hnone
    simp [movePlayed, hnone]
  · intro game hget
    unfold movePlayed
    simp only [hget]
    cases findIndex (fun player => player.socketId == socketId) game.players with
    | none => exact ⟨_, _, rfl, rfl⟩
    | some playerIndex =>
      simp only []
      split_ifs <;> exact ⟨_, _, rfl, rfl⟩

/-- Witness of `movePlayed_raises_iff_missing`: a move on the empty server,
and a move of "Alice" in her game with "Bob". -/
theorem movePlayed_raises_iff_missing_witness :
    (Server.empty.games.get (lit "a1b2c3d4") = none ∧
      movePlayed Server.empty (lit "s1") (lit "a1b2c3d4") 3 =
        .error (.gameNotFound (lit "a1b2c3d4"))) ∧
    (fullServer.games.get (lit "a1b2c3d4") = some fullGame ∧
      ∃ st1 effects, movePlayed fullServer (lit "s1") (lit "a1b2c3d4") 3 = .ok (st1, effects) ∧
        gameErrors effects = []) :=
  ⟨⟨by decide,
      (movePlayed_raises_iff_missing Server.empty (lit "s1") (lit "a1b2c3d4") 3).1 (by decide)⟩,
    ⟨by decide,
      (movePlayed_raises_iff_missing fullServer (lit "s1") (lit "a1b2c3d4") 3).2 fullGame
        (by decide)⟩⟩

/-! ## Reachable states -/

theorem JSMap.mem_set {β : Type} (m : JSMap β) (key : JSString) (value : β)
    (entry : JSString × β) (h : entry ∈ m.set key value) : entry ∈ m ∨ entry = (key, value) := by
  induction m with
  | nil =>
    simp only [JSMap.set, List.mem_singleton] at h
    exact Or.inr h
  | cons head rest ih =>
    obtain ⟨k, v⟩ := head
    by_cases hk : k = key
    · simp only [JSMap.set, hk, if_true, List.mem_cons] at h
      rcases h with h | h
      · exact Or.inr h
      · exact Or.inl (List.mem_cons_of_mem _ h)
    · simp only [JSMap.set, hk, if_false, List.mem_cons] at h
      rcases h with h | h
      · exact Or.inl (h ▸ List.mem_cons_self _ _)
      · rcases ih h with h1 | h1
        · exact Or.inl (List.mem_cons_of_mem _ h1)
        · exact Or.inr h1

theorem JSMap.mem_of_get {β : Type} (m : JSMap β) (key : JSString) (value : β)
    (h : m.get key = some value) : (key, value) ∈ m := by
  induction m with
  | nil => simp [JSMap.get] at h
  | cons head rest ih =>
    obtain ⟨k, v⟩ := head
    by_cases hk : k = key
    · simp only [JSMap.get, hk, if_true, Option.some.injEq] at h
      simp [hk, h]
    · simp only [JSMap.get, hk, if_false] at h
      exact List.mem_cons_of_mem _ (ih h)

theorem joinGameResume_games (st : Server) (socketId gameId : JSString) (game : Game)
    (draw : ℚ) :
    (joinGameResume st socketId gameId game true draw).1.games =
      st.games.set gameId
        { players := game.players, currentPlayer := some (if draw < 1 / 2 then 1 else 2),
          gameState := game.gameState, grid := game.grid } := by
  rcases hp : game.players with _ | ⟨first, _ | ⟨second, rest⟩⟩ <;>
    simp [joinGameResume, hp]

theorem joinGame_games (lower : JSString → JSString) (st : Server)
    (socketId gameId playerName : JSString) :
    (joinGame lower st socketId gameId playerName).1 = st ∨
    ∃ game host, st.games.get gameId = some game ∧ game.players = [host] ∧
      (joinGame lower st socketId gameId playerName).1.games =
        st.games.set gameId
          { players := [host, { sessionId := st.playerSessions.get socketId,
                                socketId := socketId, name := playerName }],
            currentPlayer := game.currentPlayer, gameState := game.gameState,
            grid := game.grid } := by
  cases hthrown : (joinGameBody lower st socketId gameId playerName).thrown with
  | some error =>
    left
    rw [joinGame, catchGameError_of_thrown _ _ st error hthrown
      (joinGameBody_of_thrown _ _ _ _ _ _ hthrown)]
  | none =>
    right
    unfold joinGame catchGameError
    rw [hthrown]
    unfold joinGameBody at hthrown ⊢
    cases hget : st.games.get gameId with
    | none => simp [hget] at hthrown
    | some game =>
      simp only [hget] at hthrown ⊢
      by_cases h2 : game.players.length ≥ 2
      · simp [h2] at hthrown
      · by_cases h1 : game.players.length < 1
        · have hnil : game.players = [] := List.length_eq_zero.mp (by omega)
          simp [hnil] at hthrown
        · obtain ⟨host, hhost⟩ :=
            List.length_eq_one.1 (show game.players.length = 1 by omega)
          refine ⟨game, host, rfl, hhost, ?_⟩
          simp only [hhost, List.length_singleton, ge_iff_le, Nat.not_ofNat_le_one,
            Nat.lt_irrefl, if_false] at hthrown ⊢
          split_ifs at hthrown ⊢
          simp

/-- What one permitted invocation can do to the directory: every entry it
leaves was there before, or it stores one session, which is a new one-player
session (`createGame`), a one-player session with the caller appended
(`joinGame`), a session of two or more players with a new currentPlayer
(`joinGameAcked`), a session whose currentPlayer was set with a new
currentPlayer (`movePlayed`), or a session reset by one of the two board
resets. -/
theorem step_games (lower : JSString → JSString) (st st1 : Server) (socketId : JSString)
    (event : Event) (h : step lower st socketId event = some st1) :
    (∀ entry ∈ st1.games, entry ∈ st.games) ∨
    (∃ playerName uuid, event = .createGame playerName uuid ∧
      st1.games = st.games.set (uuid.take 8) (newGame st socketId playerName)) ∨
    (∃ gameId playerName game host, event = .joinGame gameId playerName ∧
      st.games.get gameId = some game ∧ game.players = [host] ∧
      st1.games = st.games.set gameId
        { players := [host, { sessionId := st.playerSessions.get socketId,
                              socketId := socketId, name := playerName }],
          currentPlayer := game.currentPlayer, gameState := game.gameState,
          grid := game.grid }) ∨
    (∃ gameId draw game current, event = .joinGameAcked gameId draw ∧
      st.games.get gameId = some game ∧ 2 ≤ game.players.length ∧
      st1.games = st.games.set gameId
        { players := game.players, currentPlayer := some current,
          gameState := game.gameState, grid := game.grid }) ∨
    (∃ gameId columnIndex game current, event = .movePlayed gameId columnIndex ∧
      st.games.get gameId = some game ∧ game.currentPlayer ≠ none ∧
      st1.games = st.games.set gameId
        { players := game.players, currentPlayer := some current,
          gameState := game.gameState, grid := game.grid }) ∨
    (∃ gameId game current grid,
      (event = .resetBoard gameId ∨ ∃ draw, event = .confirmResetBoard gameId draw) ∧
      st.games.get gameId = some game ∧
      st1.games = st.games.set gameId
        { players := game.players, currentPlayer := some current,
          gameState := .playing, grid := grid }) := by
  cases event with
  | initSession sessionId uuid =>
    left
    simp only [step, Option.some.injEq] at h
    subst h
    unfold initSession
    split_ifs <;> exact fun _ he => he
  | createGame playerName uuid =>
    simp only [step, Option.some.injEq] at h
    subst h
    unfold createGame createGameBody catchGameError
    split_ifs
    · exact Or.inl (fun _ he => he)
    · exact Or.inl (fun _ he => he)
    · exact Or.inr (Or.inl ⟨playerName, uuid, rfl, rfl⟩)
  | joinGame gameId playerName =>
    simp only [step, Option.some.injEq] at h
    subst h
    rcases joinGame_games lower st socketId gameId playerName with hsame | ⟨game, host, h1, h2, h3⟩
    · rw [hsame]
      exact Or.inl (fun _ he => he)
    · exact Or.inr (Or.inr (Or.inl ⟨gameId, playerName, game, host, rfl, h1, h2, h3⟩))
  | joinGameAcked gameId draw =>
    simp only [step] at h
    cases hget : st.games.get gameId with
    | none => simp [hget] at h
    | some game =>
      simp only [hget] at h
      split_ifs at h with h2
      simp only [Option.some.injEq] at h
      subst h
      exact Or.inr (Or.inr (Or.inr (Or.inl ⟨gameId, draw, game, _, rfl, hget, h2,
        joinGameResume_games st socketId gameId game draw⟩)))
  | movePlayed gameId columnIndex =>
    simp only [step, movePlayed] at h
    cases hget : st.games.get gameId with
    | none => simp [hget, Except.toOption] at h
    | some game =>
      simp only [hget] at h
      cases hidx : findIndex (fun player => player.socketId == socketId) game.players with
      | none =>
        simp only [hidx, Except.toOption, Option.map_some', Option.some.injEq] at h
        subst h
        exact Or.inl (fun _ he => he)
      | some playerIndex =>
        simp only [hidx] at h
        split_ifs at h with hturn hone <;>
          simp only [Except.toOption, Option.map_some', Option.some.injEq] at h <;> subst h
        · exact Or.inl (fun _ he => he)
        · exact Or.inr (Or.inr (Or.inr (Or.inr (Or.inl
            ⟨gameId, columnIndex, game, _, rfl, hget, fun hn => hturn (by simp [hn]), rfl⟩))))
        · exact Or.inr (Or.inr (Or.inr (Or.inr (Or.inl
            ⟨gameId, columnIndex, game, _, rfl, hget, fun hn => hturn (by simp [hn]), rfl⟩))))
  | requestResetBoard gameId =>
    left
    simp only [step, requestResetBoard] at h
    cases hget : st.games.get gameId with
    | none =>
      simp only [hget, Except.toOption, Option.map_some', Option.some.injEq] at h
      subst h
      exact fun _ he => he
    | some game =>
      simp only [hget] at h
      split at h
      · simp only [Except.toOption, Option.map_some', Option.some.injEq] at h
        subst h
        exact fun _ he => he
      · split at h
        · simp [Except.toOption] at h
        · simp only [Except.toOption, Option.map_some', Option.some.injEq] at h
          subst h
          exact fun _ he => he
  | confirmResetBoard gameId draw =>
    simp only [step, Option.some.injEq] at h
    subst h
    unfold confirmResetBoard
    cases hget : st.games.get gameId with
    | none => exact Or.inl (fun _ he => he)
    | some game =>
      exact Or.inr (Or.inr (Or.inr (Or.inr (Or.inr
        ⟨gameId, game, _, _, Or.inr ⟨draw, rfl⟩, hget, rfl⟩))))
  | resetBoard gameId =>
    simp only [step, Option.some.injEq] at h
    subst h
    unfold resetBoard
    cases hget : st.games.get gameId with
    | none => exact Or.inl (fun _ he => he)
    | some game =>
      exact Or.inr (Or.inr (Or.inr (Or.inr (Or.inr
        ⟨gameId, game, _, _, Or.inl rfl, hget, rfl⟩))))
  | requestResetScores gameId =>
    left
    simp only [step, requestResetScores] at h
    cases hget : st.games.get gameId with
    | none =>
      simp only [hget, Except.toOption, Option.map_some', Option.some.injEq] at h
      subst h
      exact fun _ he => he
    | some game =>
      simp only [hget] at h
      split at h
      · simp [Except.toOption] at h
      · simp only [Except.toOption, Option.map_some', Option.some.injEq] at h
        subst h
        exact fun _ he => he
  | confirmResetScores gameId =>
    left
    simp only [step, Option.some.injEq] at h
    subst h
    unfold confirmResetScores
    split <;> exact fun _ he => he
  | resetScores gameId =>
    left
    simp only [step, Option.some.injEq] at h
    subst h
    unfold resetScores
    split <;> exact fun _ he => he
  | rejectReset gameId =>
    left
    simp only [step, rejectReset] at h
    cases hget : st.games.get gameId with
    | none =>
      simp only [hget, Except.toOption, Option.map_some', Option.some.injEq] at h
      subst h
      exact fun _ he => he
    | some game =>
      simp only [hget] at h
      split at h
      · simp [Except.toOption] at h
      · simp only [Except.toOption, Option.map_some', Option.some.injEq] at h
        subst h
        exact fun _ he => he
  | disconnect =>
    left
    obtain ⟨effects, hd, -⟩ := disconnectEach_ok socketId st.games st []
    simp only [step, disconnect, hd, Except.toOption, Option.map_some', Option.some.injEq] at h
    subst h
    intro entry he
    exact List.mem_of_mem_filter he

theorem run_invariant (lower : JSString → JSString)
    (allowed : Server → JSString → Event → Bool) (P : Server → Prop)
    (hstep : ∀ st socketId event st1, P st → allowed st socketId event = true →
      step lower st socketId event = some st1 → P st1) :
    ∀ (trace : List (JSString × Event)) (st st1 : Server),
      P st → run lower allowed st trace = some st1 → P st1 := by
  intro trace
  induction trace with
  | nil =>
    intro st st1 hP h
    simp only [run, Option.some.injEq] at h
    exact h ▸ hP
  | cons head rest ih =>
    obtain ⟨socketId, event⟩ := head
    intro st st1 hP h
    simp only [run] at h
    split_ifs at h with hallowed
    cases hs : step lower st socketId event with
    | none => simp [hs] at h
    | some st2 =>
      simp only [hs] at h
      exact ih st2 st1 (hstep st socketId event st2 hP hallowed hs) h

theorem all_set {β : Type} (Q : β → Prop) (m : JSMap β) (key : JSString) (value : β)
    (hm : ∀ entry ∈ m, Q entry.2) (hv : Q value) : ∀ entry ∈ m.set key value, Q entry.2 := by
  intro entry he
  rcases JSMap.mem_set m key value entry he with h | h
  · exact hm entry h
  · rw [h]
    exact hv

/-- In every reachable state each session has one or two players. -/
theorem player_count_invariant (lower : JSString → JSString)
    (allowed : Server → JSString → Event → Bool) (st : Server)
    (h : Reachable lower allowed st) :
    ∀ entry ∈ st.games, 1 ≤ entry.2.players.length ∧ entry.2.players.length ≤ 2 := by
  obtain ⟨trace, hrun⟩ := h
  refine run_invariant lower allowed
    (fun s => ∀ entry ∈ s.games, 1 ≤ entry.2.players.length ∧ entry.2.players.length ≤ 2)
    ?_ trace Server.empty st (by simp [Server.empty]) hrun
  intro s socketId event s1 hP _ hs
  rcases step_games lower s s1 socketId event hs with hsub | ⟨_, _, _, hg⟩ |
    ⟨_, _, game, host, _, hget, hone, hg⟩ | ⟨_, _, game, _, _, hget, _, hg⟩ |
    ⟨_, _, game, _, _, hget, _, hg⟩ | ⟨_, game, _, _, _, hget, hg⟩
  · exact fun entry he => hP entry (hsub entry he)
  · rw [hg]
    exact all_set (fun game : Game => 1 ≤ game.players.length ∧ game.players.length ≤ 2)
      _ _ _ hP (by simp [newGame])
  · rw [hg]
    exact all_set (fun game : Game => 1 ≤ game.players.length ∧ game.players.length ≤ 2)
      _ _ _ hP (by simp)
  · rw [hg]
    exact all_set (fun game : Game => 1 ≤ game.players.length ∧ game.players.length ≤ 2)
      _ _ _ hP (hP _ (JSMap.mem_of_get _ _ _ hget))
  · rw [hg]
    exact all_set (fun game : Game => 1 ≤ game.players.length ∧ game.players.length ≤ 2)
      _ _ _ hP (hP _ (JSMap.mem_of_get _ _ _ hget))
  · rw [hg]
    exact all_set (fun game : Game => 1 ≤ game.players.length ∧ game.players.length ≤ 2)
      _ _ _ hP (hP _ (JSMap.mem_of_get _ _ _ hget))

theorem joinGameBody_notEnough (lower : JSString → JSString) (st : Server)
    (socketId gameId playerName : JSString)
    (h : (joinGameBody lower st socketId gameId playerName).thrown =
      some .NotEnoughPlayerError) :
    ∃ game, st.games.get gameId = some game ∧ game.players.length < 1 := by
  unfold joinGameBody at h
  cases hget : st.games.get gameId with
  | none => simp [hget] at h
  | some game =>
    simp only [hget] at h
    split_ifs at h with h2 h1 <;> first | exact ⟨game, rfl, h1⟩ | simp at h

theorem message_head (error : GameError) (h : error ≠ .NotEnoughPlayerError) :
    error.message.head? ≠ (GameError.message .NotEnoughPlayerError).head? := by
  cases error with
  | GameNotFoundError gameId => simp [GameError.message, lit]
  | GameFullError => decide
  | NotEnoughPlayerError => exact absurd rfl h
  | InvalidUsernameError => decide
  | EmptyUsernameError => decide
  | UsernameAlreadyUsedError => decide

/-- C16: in every state reachable from the empty server by any sequence of
handler invocations, every session of the directory has at least 1 and at most
2 players, and `joinGame`, whatever its caller and arguments, neither throws
the NotEnoughPlayer error nor emits its message. -/
theorem reachable_player_count (lower : JSString → JSString) (st : Server)
    (h : Reachable lower anyInvocation st) :
    (∀ entry ∈ st.games, 1 ≤ entry.2.players.length ∧ entry.2.players.length ≤ 2) ∧
    ∀ socketId gameId playerName,
      (joinGameBody lower st socketId gameId playerName).thrown ≠
          some .NotEnoughPlayerError ∧
        GameError.message .NotEnoughPlayerError ∉
          gameErrors (joinGame lower st socketId gameId playerName).2 := by
  have hcount := player_count_invariant lower anyInvocation st h
  refine ⟨hcount, ?_⟩
  intro socketId gameId playerName
  have hthrown : (joinGameBody lower st socketId gameId playerName).thrown ≠
      some .NotEnoughPlayerError := by
    intro hne
    obtain ⟨game, hget, hlen⟩ := joinGameBody_notEnough lower st socketId gameId playerName hne
    have := (hcount _ (JSMap.mem_of_get _ _ _ hget)).1
    simp only at this
    omega
  refine ⟨hthrown, ?_⟩
  rw [joinGame, gameErrors_catchGameError _ _ (gameErrors_joinGameBody _ _ _ _ _)]
  cases hth : (joinGameBody lower st socketId gameId playerName).thrown with
  | none => simp
  | some error =>
    have herr : error ≠ .NotEnoughPlayerError := by
      intro he
      exact hthrown (by rw [hth, he])
    simp only [Option.toList, List.map_cons, List.map_nil, List.mem_singleton]
    intro hmsg
    exact message_head error herr (by rw [hmsg])

/-- Witness of `reachable_player_count`: the state after "Alice" has created a
game and "Bob" has joined it. -/
theorem reachable_player_count_witness :
    Reachable toLowerCase anyInvocation joinedServer ∧
    ((∀ entry ∈ joinedServer.games,
        1 ≤ entry.2.players.length ∧ entry.2.players.length ≤ 2) ∧
      ∀ socketId gameId playerName,
        (joinGameBody toLowerCase joinedServer socketId gameId playerName).thrown ≠
            some .NotEnoughPlayerError ∧
          GameError.message .NotEnoughPlayerError ∉
            gameErrors (joinGame toLowerCase joinedServer socketId gameId playerName).2) :=
  ⟨⟨[(lit "s1", .createGame (lit "Alice") sampleUuid),
      (lit "s2", .joinGame (lit "01234567") (lit "Bob"))], by decide⟩,
    reachable_player_count toLowerCase joinedServer
      ⟨[(lit "s1", .createGame (lit "Alice") sampleUuid),
        (lit "s2", .joinGame (lit "01234567") (lit "Bob"))], by decide⟩⟩

/-- C14 as stated fails: "Alice" (socket "s1") creates a game and the same
socket joins it under the name "Bob"; the session reached holds socket "s1"
twice. -/
theorem host_joins_own_game :
    run toLowerCase anyInvocation Server.empty
        [(lit "s1", .createGame (lit "Alice") sampleUuid),
         (lit "s1", .joinGame (lit "01234567") (lit "Bob"))] = some selfJoinedServer ∧
    selfJoinedServer.games =
      [(lit "01234567",
        { players := [{ sessionId := none, socketId := lit "s1", name := lit "Alice" },
                      { sessionId := none, socketId := lit "s1", name := lit "Bob" }],
          currentPlayer := none, gameState := .waiting, grid := none })] ∧
    ¬ ∀ entry ∈ selfJoinedServer.games, (entry.2.players.map Player.socketId).Nodup := by
  decide

/-- C14, amended: in every state reachable from the empty server by any
sequence of handler invocations in which no socket sends `joinGame` for a game
it is already a player of, no session has two players with the same socketId. -/
theorem reachable_distinct_sockets (lower : JSString → JSString) (st : Server)
    (h : Reachable lower joinsByNewcomers st) :
    ∀ entry ∈ st.games, (entry.2.players.map Player.socketId).Nodup := by
  obtain ⟨trace, hrun⟩ := h
  refine run_invariant lower joinsByNewcomers
    (fun s => ∀ entry ∈ s.games, (entry.2.players.map Player.socketId).Nodup)
    ?_ trace Server.empty st (by simp [Server.empty]) hrun
  intro s socketId event s1 hP hallowed hs
  rcases step_games lower s s1 socketId event hs with hsub | ⟨_, _, _, hg⟩ |
    ⟨gameId, playerName, game, host, hev, hget, hone, hg⟩ | ⟨_, _, game, _, _, hget, _, hg⟩ |
    ⟨_, _, game, _, _, hget, _, hg⟩ | ⟨_, game, _, _, _, hget, hg⟩
  · exact fun entry he => hP entry (hsub entry he)
  · rw [hg]
    exact all_set (fun game : Game => (game.players.map Player.socketId).Nodup)
      _ _ _ hP (by simp [newGame])
  · rw [hg]
    refine all_set (fun game : Game => (game.players.map Player.socketId).Nodup)
      _ _ _ hP ?_
    subst hev
    simp only [joinsByNewcomers, hget, Option.all_some, Game.hasSocket, hone, List.any_cons,
      List.any_nil, Bool.or_false, Bool.not_eq_true', beq_eq_false_iff_ne, ne_eq] at hallowed
    simp [hallowed]
  · rw [hg]
    exact all_set (fun game : Game => (game.players.map Player.socketId).Nodup)
      _ _ _ hP (hP _ (JSMap.mem_of_get _ _ _ hget))
  · rw [hg]
    exact all_set (fun game : Game => (game.players.map Player.socketId).Nodup)
      _ _ _ hP (hP _ (JSMap.mem_of_get _ _ _ hget))
  · rw [hg]
    exact all_set (fun game : Game => (game.players.map Player.socketId).Nodup)
      _ _ _ hP (hP _ (JSMap.mem_of_get _ _ _ hget))

/-- Witness of `reachable_distinct_sockets`: the state after "Alice" (socket
"s1") has created a game and "Bob" (socket "s2") has joined it. -/
theorem reachable_distinct_sockets_witness :
    Reachable toLowerCase joinsByNewcomers joinedServer ∧
    ∀ entry ∈ joinedServer.games, (entry.2.players.map Player.socketId).Nodup :=
  ⟨⟨[(lit "s1", .createGame (lit "Alice") sampleUuid),
      (lit "s2", .joinGame (lit "01234567") (lit "Bob"))], by decide⟩,
    reachable_distinct_sockets toLowerCase joinedServer
      ⟨[(lit "s1", .createGame (lit "Alice") sampleUuid),
        (lit "s2", .joinGame (lit "01234567") (lit "Bob"))], by decide⟩⟩

/-- C15 as stated fails: "Alice" creates a game and, alone in it, sends
`resetBoard`; the session reached has currentPlayer 1 and one player. -/
theorem lone_host_resets_board :
    run toLowerCase anyInvocation Server.empty
        [(lit "s1", .createGame (lit "Alice") sampleUuid),
         (lit "s1", .resetBoard (lit "01234567"))] = some loneResetServer ∧
    loneResetServer.games =
      [(lit "01234567",
        { players := [{ sessionId := none, socketId := lit "s1", name := lit "Alice" }],
          currentPlayer := some 1, gameState := .playing, grid := none })] ∧
    ¬ ∀ entry ∈ loneResetServer.games,
        entry.2.currentPlayer ≠ none → entry.2.players.length = 2 := by
  decide

/-- C15, amended: in every state reachable from the empty server by any
sequence of handler invocations in which `confirmResetBoard` and `resetBoard`
are sent only for games holding two players, every session whose currentPlayer
is not null has exactly 2 players. -/
theorem reachable_currentPlayer (lower : JSString → JSString) (st : Server)
    (h : Reachable lower resetsOnFullGames st) :
    ∀ entry ∈ st.games, entry.2.currentPlayer ≠ none → entry.2.players.length = 2 := by
  obtain ⟨trace, hrun⟩ := h
  have hboth := run_invariant lower resetsOnFullGames
    (fun s => ∀ entry ∈ s.games,
      entry.2.players.length ≤ 2 ∧ (entry.2.currentPlayer ≠ none → entry.2.players.length = 2))
    ?_ trace Server.empty st (by simp [Server.empty]) hrun
  · exact fun entry he => (hboth entry he).2
  intro s socketId event s1 hP hallowed hs
  rcases step_games lower s s1 socketId event hs with hsub | ⟨_, _, _, hg⟩ |
    ⟨_, _, game, host, _, hget, hone, hg⟩ | ⟨_, _, game, _, _, hget, h2, hg⟩ |
    ⟨_, _, game, _, _, hget, hcur, hg⟩ | ⟨gameId, game, _, _, hev, hget, hg⟩
  · exact fun entry he => hP entry (hsub entry he)
  · rw [hg]
    exact all_set (fun game : Game =>
      game.players.length ≤ 2 ∧ (game.currentPlayer ≠ none → game.players.length = 2))
      _ _ _ hP (by simp [newGame])
  · rw [hg]
    exact all_set (fun game : Game =>
      game.players.length ≤ 2 ∧ (game.currentPlayer ≠ none → game.players.length = 2))
      _ _ _ hP (by simp)
  · rw [hg]
    have hle := (hP _ (JSMap.mem_of_get _ _ _ hget)).1
    exact all_set (fun game : Game =>
      game.players.length ≤ 2 ∧ (game.currentPlayer ≠ none → game.players.length = 2))
      _ _ _ hP ⟨hle, fun _ => Nat.le_antisymm hle h2⟩
  · rw [hg]
    have hgame := hP _ (JSMap.mem_of_get _ _ _ hget)
    exact all_set (fun game : Game =>
      game.players.length ≤ 2 ∧ (game.currentPlayer ≠ none → game.players.length = 2))
      _ _ _ hP ⟨hgame.1, fun _ => hgame.2 hcur⟩
  · rw [hg]
    have hfull : game.players.length = 2 := by
      rcases hev with hev | ⟨draw, hev⟩ <;> subst hev <;>
        simpa [resetsOnFullGames, hget] using hallowed
    exact all_set (fun game : Game =>
      game.players.length ≤ 2 ∧ (game.currentPlayer ≠ none → game.players.length = 2))
      _ _ _ hP ⟨Nat.le_of_eq hfull, fun _ => hfull⟩

/-- Witness of `reachable_currentPlayer`: the state after "Alice" has created
a game, "Bob" has joined it and `resetBoard` was sent: currentPlayer is 1 and
the session has two players. -/
theorem reachable_currentPlayer_witness :
    Reachable toLowerCase resetsOnFullGames fullResetServer ∧
    ∀ entry ∈ fullResetServer.games,
      entry.2.currentPlayer ≠ none → entry.2.players.length = 2 :=
  ⟨⟨[(lit "s1", .createGame (lit "Alice") sampleUuid),
      (lit "s2", .joinGame (lit "01234567") (lit "Bob")),
      (lit "s2", .resetBoard (lit "01234567"))], by decide⟩,
    reachable_currentPlayer toLowerCase fullResetServer
      ⟨[(lit "s1", .createGame (lit "Alice") sampleUuid),
        (lit "s2", .joinGame (lit "01234567") (lit "Bob")),
        (lit "s2", .resetBoard (lit "01234567"))], by decide⟩⟩

/-! ## The reset requests and rejectReset -/

theorem find_own_eq_none (game : Game) (socketId : JSString)
    (h : game.hasSocket socketId = false) :
    game.players.find? (fun player => player.socketId == socketId) = none := by
  rw [List.find?_eq_none]
  intro player hp
  simp only [Game.hasSocket, List.any_eq_false] at h
  exact h player hp

theorem find_own_eq_some (game : Game) (socketId : JSString)
    (h : game.hasSocket socketId = true) :
    ∃ requester, game.players.find? (fun player => player.socketId == socketId) =
      some requester := by
  cases hf : game.players.find? (fun player => player.socketId == socketId) with
  | some requester => exact ⟨requester, rfl⟩
  | none =>
    rw [List.find?_eq_none] at hf
    simp only [Game.hasSocket, List.any_eq_true] at h
    obtain ⟨player, hp, hsock⟩ := h
    exact absurd hsock (hf player hp)

theorem find_other_of_stranger (game : Game) (socketId : JSString)
    (h : game.hasSocket socketId = false) (hne : 1 ≤ game.players.length) :
    ∃ otherPlayer, game.players.find? (fun player => player.socketId != socketId) =
      some otherPlayer := by
  cases hp : game.players with
  | nil => simp [hp] at hne
  | cons first rest =>
    simp only [Game.hasSocket, hp, List.any_cons, Bool.or_eq_false_iff] at h
    refine ⟨first, ?_⟩
    simp [List.find?, bne, h.1]

/-- C20: in every reachable state, `requestResetBoard`, `requestResetScores`
and `rejectReset` change nothing and emit nothing when the game is missing; for
an existing session each of them returns normally, with the state unchanged,
when the sending socket is one of its players, and each of them ends with an
uncaught TypeError when it is not. -/
theorem reset_requests_fault_iff (lower : JSString → JSString) (st : Server)
    (socketId gameId : JSString) (h : Reachable lower anyInvocation st) :
    (st.games.get gameId = none →
      requestResetBoard st socketId gameId = .ok (st, []) ∧
      requestResetScores st socketId gameId = .ok (st, []) ∧
      rejectReset st socketId gameId = .ok (st, [])) ∧
    (∀ game, st.games.get gameId = some game →
      (game.hasSocket socketId = true →
        (∃ effects, requestResetBoard st socketId gameId = .ok (st, effects)) ∧
        (∃ effects, requestResetScores st socketId gameId = .ok (st, effects)) ∧
        (∃ effects, rejectReset st socketId gameId = .ok (st, effects))) ∧
      (game.hasSocket socketId = false →
        requestResetBoard st socketId gameId = .error .typeError ∧
        requestResetScores st socketId gameId = .error .typeError ∧
        rejectReset st socketId gameId = .error .typeError)) := by
  constructor
  · intro hnone
    simp [requestResetBoard, requestResetScores, rejectReset, hnone]
  · intro game hget
    constructor
    · intro hmember
      obtain ⟨requester, hreq⟩ := find_own_eq_some game socketId hmember
      refine ⟨?_, ?_, ?_⟩
      · simp only [requestResetBoard, hget, hreq]
        cases game.players.find? (fun player => player.socketId != socketId) with
        | none => exact ⟨_, rfl⟩
        | some otherPlayer => exact ⟨_, rfl⟩
      · simp only [requestResetScores, hget, hreq]
        exact ⟨_, rfl⟩
      · simp only [rejectReset, hget, hreq]
        exact ⟨_, rfl⟩
    · intro hstranger
      have hown := find_own_eq_none game socketId hstranger
      have hcount := (player_count_invariant lower anyInvocation st h _
        (JSMap.mem_of_get _ _ _ hget)).1
      obtain ⟨otherPlayer, hother⟩ := find_other_of_stranger game socketId hstranger hcount
      refine ⟨?_, ?_, ?_⟩
      · simp only [requestResetBoard, hget, hother, hown]
      · simp only [requestResetScores, hget, hown]
      · simp only [rejectReset, hget, hown]

/-- Witness of `reset_requests_fault_iff`: in the game of "Alice" (socket
"s1") and "Bob" (socket "s2"), the three requests of "Bob" return and those of
the stranger "s3" fault; with an unknown game id nothing happens. -/
theorem reset_requests_fault_iff_witness :
    Reachable toLowerCase anyInvocation joinedServer ∧
    (joinedServer.games.get (lit "unknown") = none ∧
      requestResetBoard joinedServer (lit "s3") (lit "unknown") = .ok (joinedServer, []) ∧
      requestResetScores joinedServer (lit "s3") (lit "unknown") = .ok (joinedServer, []) ∧
      rejectReset joinedServer (lit "s3") (lit "unknown") = .ok (joinedServer, [])) ∧
    (joinedServer.games.get (lit "01234567") = some joinedGame ∧
      joinedGame.hasSocket (lit "s2") = true ∧
      (∃ effects, requestResetBoard joinedServer (lit "s2") (lit "01234567") =
        .ok (joinedServer, effects)) ∧
      (∃ effects, requestResetScores joinedServer (lit "s2") (lit "01234567") =
        .ok (joinedServer, effects)) ∧
      (∃ effects, rejectReset joinedServer (lit "s2") (lit "01234567") =
        .ok (joinedServer, effects))) ∧
    (joinedServer.games.get (lit "01234567") = some joinedGame ∧
      joinedGame.hasSocket (lit "s3") = false ∧
      requestResetBoard joinedServer (lit "s3") (lit "01234567") = .error .typeError ∧
      requestResetScores joinedServer (lit "s3") (lit "01234567") = .error .typeError ∧
      rejectReset joinedServer (lit "s3") (lit "01234567") = .error .typeError) :=
  ⟨⟨[(lit "s1", .createGame (lit "Alice") sampleUuid),
      (lit "s2", .joinGame (lit "01234567") (lit "Bob"))], by decide⟩,
    ⟨by decide,
      (reset_requests_fault_iff toLowerCase joinedServer (lit "s3") (lit "unknown")
        ⟨[(lit "s1", .createGame (lit "Alice") sampleUuid),
          (lit "s2", .joinGame (lit "01234567") (lit "Bob"))], by decide⟩).1 (by decide)⟩,
    ⟨by decide, by decide,
      ((reset_requests_fault_iff toLowerCase joinedServer (lit "s2") (lit "01234567")
        ⟨[(lit "s1", .createGame (lit "Alice") sampleUuid),
          (lit "s2", .joinGame (lit "01234567") (lit "Bob"))], by decide⟩).2 joinedGame
        (by decide)).1 (by decide)⟩,
    ⟨by decide, by decide,
      ((reset_requests_fault_iff toLowerCase joinedServer (lit "s3") (lit "01234567")
        ⟨[(lit "s1", .createGame (lit "Alice") sampleUuid),
          (lit "s2", .joinGame (lit "01234567") (lit "Bob"))], by decide⟩).2 joinedGame
        (by decide)).2 (by decide)⟩⟩

end Puissance4
